import Mathlib

/-!
Verification development for the QuickRev File API backend.

The definitions below are shallow embeddings of the Python source:

* `src/core/cleaner/cleaner.py` — `basic_text_cleaning` (two `re.sub` passes
  and `str.strip()`), `clean_txt`;
* `src/core/converter/converters.py` — the four text extractors;
* `src/core/generator/generators.py` — flashcard prompt construction;
* `src/controllers/*.py` — the HTTP endpoint pipelines, with the external
  Appwrite/LLM calls abstracted as oracle values of type `Except`.

External libraries (Appwrite SDK, Gemini client, pypdf/docx/pptx/pypandoc)
are uninterpreted: each call site becomes an `Except`-valued oracle field, and
the embedding reproduces the Python control flow (try/except/finally) around
those calls.
-/

/- ===================== Character classes ===================== -/

/-- Characters matched by the regex class `[\r\n]` in
`re.sub(r"[\r\n]{3,}", "\n\n", raw_text)` (cleaner.py line 12). -/
def isLB (c : Char) : Bool := c == '\r' || c == '\n'

/-- Characters matched by the regex class `[ \t]` in
`re.sub(r"[ \t]+", " ", cleaned_text)` (cleaner.py line 13). -/
def isHT (c : Char) : Bool := c == ' ' || c == '\t'

/-- The ASCII whitespace characters removed by Python `str.strip()`:
space, tab, newline, carriage return, vertical tab, form feed. -/
def isPyWS (c : Char) : Bool :=
  c == ' ' || c == '\t' || c == '\n' || c == '\r' || c == '\x0b' || c == '\x0c'

/- ===================== basic_text_cleaning (cleaner.py 7-14) ===================== -/

/-- Replacement rule of `re.sub(r"[\r\n]{3,}", "\n\n", _)` applied to one
maximal run of `[\r\n]` characters: a run of length `>= 3` is matched
(greedy, leftmost-longest) and replaced by `"\n\n"`; a shorter run is not
matched and passes through unchanged. -/
def flushLB (run : List Char) : List Char :=
  if 3 ≤ run.length then ['\n', '\n'] else run

/-- One left-to-right pass of `re.sub(r"[\r\n]{3,}", "\n\n", _)`.
The accumulator `run` holds the current (not yet flushed) maximal run of
`[\r\n]` characters. -/
def collapseLBAux : List Char → List Char → List Char
  | run, [] => flushLB run
  | run, c :: cs =>
    if isLB c then collapseLBAux (run ++ [c]) cs
    else flushLB run ++ c :: collapseLBAux [] cs

/-- Source: `re.sub(r"[\r\n]{3,}", "\n\n", _)` on a character list (cleaner.py line 12). -/
def collapseLB (l : List Char) : List Char := collapseLBAux [] l

/-- One left-to-right pass of `re.sub(r"[ \t]+", " ", _)`: every maximal run
of `[ \t]` characters is replaced by a single space. `inRun` records whether
the scanner is inside a run whose single replacement space was already
emitted. -/
def collapseHTAux : Bool → List Char → List Char
  | _, [] => []
  | inRun, c :: cs =>
    if isHT c then
      if inRun then collapseHTAux true cs else ' ' :: collapseHTAux true cs
    else c :: collapseHTAux false cs

/-- Source: `re.sub(r"[ \t]+", " ", _)` on a character list (cleaner.py line 13). -/
def collapseHT (l : List Char) : List Char := collapseHTAux false l

/-- Python `str.strip()` on a character list: remove leading and trailing
whitespace. -/
def pyStrip (l : List Char) : List Char :=
  (l.dropWhile isPyWS).rdropWhile isPyWS

/-- Source: `basic_text_cleaning` (cleaner.py lines 7-14): collapse runs of 3+
line-break characters to `"\n\n"`, collapse runs of spaces/tabs to one
space, then strip both ends.  (The `isinstance` guard on line 9 is a
Python-typing artifact and is vacuous for string inputs.) -/
def basic_text_cleaning (s : String) : String :=
  ⟨pyStrip (collapseHT (collapseLB s.data))⟩

/- ===================== Claim-side cleaning spec (for C5) ===================== -/

/-- Decomposition of a character list into its maximal runs: consecutive
characters are grouped together exactly when they agree on the predicate
`p`, so each group is either a maximal run of `p`-characters or a maximal
run of non-`p`-characters. -/
def charRuns (p : Char → Bool) (l : List Char) : List (List Char) :=
  match l with
  | [] => []
  | c :: cs =>
    if p c then (c :: cs.takeWhile p) :: charRuns p (cs.dropWhile p)
    else (c :: cs.takeWhile (fun x => !p x)) :: charRuns p (cs.dropWhile (fun x => !p x))
termination_by l.length
decreasing_by
  · exact Nat.lt_succ_of_le ((List.dropWhile_suffix p).length_le)
  · exact Nat.lt_succ_of_le ((List.dropWhile_suffix _).length_le)

/-- Claim wording for the first pass: every run of 3 or more consecutive
line-break characters is collapsed to exactly one blank line (`"\n\n"`);
runs of 1 or 2 line breaks, and everything else, are left unchanged. -/
def claimCollapseLineBreaks (l : List Char) : List Char :=
  ((charRuns isLB l).map fun r =>
    if r.all isLB ∧ 3 ≤ r.length then ['\n', '\n'] else r).flatten

/-- Claim wording for the second pass: every run of horizontal whitespace
(spaces/tabs) is collapsed to a single space; everything else is unchanged. -/
def claimCollapseHorizontal (l : List Char) : List Char :=
  ((charRuns isHT l).map fun r => if r.all isHT then [' '] else r).flatten

/-- Claim wording for the final pass: trim whitespace from both ends. -/
def claimTrim (l : List Char) : List Char :=
  (l.dropWhile isPyWS).rdropWhile isPyWS

/-- The deterministic pre-cleaning pass as described by the spec sentence:
collapse 3+ line breaks, collapse horizontal whitespace, trim ends. -/
def claimClean (s : String) : String :=
  ⟨claimTrim (claimCollapseHorizontal (claimCollapseLineBreaks s.data))⟩


/- ===================== File names and extensions ===================== -/

/-- The extension part of `os.path.splitext` for a bare file name (no path
separators, as returned by Appwrite's `get_file` metadata): the suffix
starting at the last dot, provided at least one earlier character of the
name is not a dot (leading dots never start an extension). Returns `[]`
when there is no extension. -/
def splitextExtData (l : List Char) : List Char :=
  let r := l.reverse
  let afterRev := r.takeWhile (fun c => !(c == '.'))
  match r.dropWhile (fun c => !(c == '.')) with
  | [] => []
  | _dot :: beforeRev =>
    if beforeRev.any (fun c => !(c == '.')) then '.' :: afterRev.reverse else []

/-- The root part of `os.path.splitext`: the name with its extension removed. -/
def splitextBaseData (l : List Char) : List Char :=
  l.take (l.length - (splitextExtData l).length)

/-- Source: `os.path.splitext(name)[0]` on strings. -/
def splitextBase (name : String) : String := ⟨splitextBaseData name.data⟩

/-- Source: `os.path.splitext(original_file_name)[1].lstrip(".").lower()`
(generate_controller.py line 52): the file type used to select a converter. -/
def fileTypeOf (name : String) : String :=
  ⟨((splitextExtData name.data).dropWhile (fun c => c == '.')).map Char.toLower⟩

/-- The keys of the `converters` dict
(generate_controller.py lines 27-32 and 213-218). -/
def supportedTypes : List String := ["pdf", "pptx", "docx", "txt"]


/- ===================== Converters (converters.py 6-52) ===================== -/

/-- The text contributed by one successfully extracted unit
(a PDF page or DOCX paragraph), or the text of the `.ok` payload. -/
def okText (s : Except String String) : String :=
  match s with
  | .ok t => t
  | .error _ => ""

/-- The accumulation loop of `convert_pdf_to_txt` / `convert_docx_to_txt`:
`text += unit + "\n"` for each unit, aborted by the first raised exception,
whose effect (because of the surrounding `try/except`) is to keep the text
accumulated so far. -/
def convertLoop : List (Except String String) → String → String
  | [], acc => acc
  | step :: rest, acc =>
    match step with
    | .error _ => acc
    | .ok t => convertLoop rest (acc ++ t ++ "\n")

/-- Source: `convert_pdf_to_txt` (converters.py 6-15).  `readerResult` is the outcome
of `PdfReader(file_path)` followed by the per-page `extract_text()` calls:
opening may fail, and each page extraction may fail.  Every failure is
caught, logged and swallowed; the function always returns the text
accumulated so far. -/
def convert_pdf_to_txt (readerResult : Except String (List (Except String String))) : String :=
  match readerResult with
  | .error _ => ""
  | .ok pages => convertLoop pages ""

/-- Source: `convert_docx_to_txt` (converters.py 18-27): same shape as the PDF
extractor, with paragraphs in place of pages. -/
def convert_docx_to_txt (docResult : Except String (List (Except String String))) : String :=
  match docResult with
  | .error _ => ""
  | .ok paras => convertLoop paras ""

/-- One shape of a PPTX slide: `.ok (some t)` when `hasattr(shape, "text")`
holds and yields `t`, `.ok none` when the shape has no text attribute,
`.error` when the library raises. -/
def shapeText (s : Except String (Option String)) : String :=
  match s with
  | .ok (some t) => t ++ "\n"
  | .ok none => ""
  | .error _ => ""

/-- The nested slide/shape loop of `convert_pptx_to_txt`, aborted by the
first exception. -/
def pptxLoop : List (List (Except String (Option String))) → String → String
  | [], acc => acc
  | slide :: rest, acc => pptxSlide slide rest acc
where
  pptxSlide : List (Except String (Option String)) →
      List (List (Except String (Option String))) → String → String
  | [], rest, acc => pptxLoop rest acc
  | step :: shapes, rest, acc =>
    match step with
    | .error _ => acc
    | .ok none => pptxSlide shapes rest acc
    | .ok (some t) => pptxSlide shapes rest (acc ++ t ++ "\n")

/-- Source: `convert_pptx_to_txt` (converters.py 30-41). -/
def convert_pptx_to_txt
    (prsResult : Except String (List (List (Except String (Option String))))) : String :=
  match prsResult with
  | .error _ => ""
  | .ok slides => pptxLoop slides ""

/-- Source: `convert_txt_to_txt` (converters.py 44-52): a single `file.read()`,
with any failure swallowed into the initial empty string. -/
def convert_txt_to_txt (readResult : Except String String) : String :=
  match readResult with
  | .ok t => t
  | .error _ => ""

/-- Source: `convert_md_to_docx` (converters.py 55-72): the one converter that
re-raises its failure instead of swallowing it. -/
def convert_md_to_docx (pandocResult : Except String Unit) : Except String Unit :=
  match pandocResult with
  | .ok _ => .ok ()
  | .error e => .error e

/- ===================== Flashcard generator (generators.py 20-83) ===================== -/

/-- The quiz-type count configuration dict built by
`generate_flashcards_endpoint` (generate_controller.py lines 227-236) and
read by `generate_flashcards` via `config.get(key, 0)`. -/
structure FlashConfig where
  num_items : Int
  multiplechoice : Int
  identification : Int
  trueorfalse : Int
  enumeration : Int
deriving DecidableEq, Repr

/-- Source: `type_counts` in iteration order `sort_order_types`
(generators.py lines 28-45). -/
def flashTypeCounts (config : FlashConfig) : List (String × Int) :=
  [("Multiple Choice", config.multiplechoice),
   ("Identification", config.identification),
   ("True or False", config.trueorfalse),
   ("Enumeration", config.enumeration)]

/-- The loop of generators.py lines 47-51: build
`enabled_types_instructions` (one `"<type> (Quantity: <count>)"` entry per
type with positive count, in the fixed order) and `total_items` (the sum of
the positive counts). -/
def flashEnabledAndTotal (config : FlashConfig) : List String × Int :=
  (flashTypeCounts config).foldl
    (fun acc tc =>
      if 0 < tc.2 then
        (acc.1 ++ [tc.1 ++ " (Quantity: " ++ toString tc.2 ++ ")"], acc.2 + tc.2)
      else acc)
    ([], 0)

/-- Source: `final_prompt` of `generate_flashcards` (generators.py lines 65-79),
with `types_quantity_list = "\n * ".join(enabled_types_instructions)`. -/
def flashcardsFinalPrompt (basePrompt content : String)
    (instructions : List String) (totalItems : Int) : String :=
  "\n    " ++ basePrompt ++
  "\n\n    --- INSTRUCTIONS ---\n    1. The total number of flashcards to generate MUST be **" ++
  toString totalItems ++
  "**.\n    2. The required breakdown of flashcard types and their exact quantities are:\n     * " ++
  String.intercalate "\n * " instructions ++
  "\n    3. **SORTING REQUIREMENT**: The flashcards in the JSON array MUST be sorted by \x27Type\x27 in the following order: **Multiple Choice, Identification, True or False, Enumeration**.\n    4. **QUANTITY REQUIREMENT**: Strictly adhere to the quantity specified for each type.\n\n    --- CONTENT TO ANALYZE ---\n    ---\n    " ++
  content ++ "\n    ---\n    "

/-- Source: `generate_flashcards` (generators.py 20-83): builds the per-type
instruction list and total, raises `ValueError` when the total is zero
(before `read_prompt` and before the LLM call), otherwise sends the
constructed prompt to the LLM (`send_prompt`, modelled by `llm`; its
`.error` outcome covers both `read_prompt` and `send_prompt` failures) and
returns the raw string response. -/
def generate_flashcards_gen (llm : String → Except String String)
    (basePrompt content : String) (config : FlashConfig) : Except String String :=
  let et := flashEnabledAndTotal config
  if et.2 = 0 then .error "The total number of flashcard items requested is zero."
  else llm (flashcardsFinalPrompt basePrompt content et.1 et.2)

/-- Source: `generate_reviewer` (generators.py 5-17): template plus content,
one LLM call, response returned verbatim. -/
def generate_reviewer_gen (llm : String → String) (basePrompt content : String) : String :=
  llm ("\n    " ++ basePrompt ++ "\n    " ++ content ++ "\n    ")

/-- Source: `clean_txt` (cleaner.py 18-35): deterministic pre-cleaning, then one
LLM call on the templated prompt. -/
def clean_txt (llm : String → String) (basePrompt raw_text : String) : String :=
  llm ("\n    " ++ basePrompt ++ "\n    " ++ basic_text_cleaning raw_text ++ "\n    ")

/-- Source: `clamp_quiz_items` (generate_controller.py lines 189-191). -/
def clamp_quiz_items (value : Int) : Int := max 0 (min 100 value)

/-- Source: `flashcards_config` as built by the endpoint from the clamped counts
(generate_controller.py lines 194-236). -/
def flashcardsConfigOf (multiple_choice identification true_or_false enumeration : Int) :
    FlashConfig :=
  let nmc := clamp_quiz_items multiple_choice
  let nid := clamp_quiz_items identification
  let ntf := clamp_quiz_items true_or_false
  let nen := clamp_quiz_items enumeration
  { num_items := nmc + nid + ntf + nen
    multiplechoice := nmc
    identification := nid
    trueorfalse := ntf
    enumeration := nen }


/- ===================== Error model and shared pieces ===================== -/

/-- An `AppwriteException`: upstream status code (`e.code`) and message. -/
structure AppwriteError where
  code : Int
  message : String
deriving DecidableEq, Repr

/-- A FastAPI `HTTPException` as surfaced to the client: HTTP status code and
the (string part of the) detail payload. -/
structure HTTPError where
  status : Nat
  message : String
deriving DecidableEq, Repr

/-- The status mapping used by all four handlers in cloud_controlller.py
(lines 103, 188, 315, 403):
`HTTP_400_BAD_REQUEST if e.code < 500 else HTTP_500_INTERNAL_SERVER_ERROR`. -/
def appwriteStatusOf (e : AppwriteError) : Nat :=
  if e.code < 500 then 400 else 500

/-- The detail string of those handlers, parameterized by the `Service:`
suffix each endpoint uses. -/
def appwriteFailureDetail (service : String) (e : AppwriteError) : String :=
  "Appwrite API Call Failed. Status: " ++ toString e.code ++ ". Message: " ++
    e.message ++ ". Service: " ++ service ++ "."

/-- Source: `HTTPException` raised by the cloud controller's `except AppwriteException`
handlers (upload / listing / association; view adds a 404 special case). -/
def cloudAppwriteHTTP (service : String) (e : AppwriteError) : HTTPError :=
  ⟨appwriteStatusOf e, appwriteFailureDetail service e⟩

/-- A metadata record written by `create_document`: the `doc_data` dict of
cloud_controlller.py lines 73-79 and generate_controller.py lines 121-127 and
339-345.  Generic in the id type so the same builders serve the endpoint
models (opaque string ids) and the system-level trace model (numeric ids). -/
structure DocData (ι : Type) where
  user_id : String
  type : String
  name : String
  file_id : ι
  source_file_id : ι
deriving DecidableEq, Repr

/-- Source: `doc_data` of the upload endpoint (cloud_controlller.py 73-79). -/
def uploadDocData (ι : Type) (user_id : String) (newId : ι)
    (original_file_name : String) : DocData ι :=
  { user_id := user_id
    type := "original"
    name := splitextBase original_file_name
    file_id := newId
    source_file_id := newId }

/-- Source: `output_file_name` of the reviewer endpoint (generate_controller.py 87-88). -/
def reviewerOutputFileName (original_file_name : String) : String :=
  "(Reviewer) " ++ splitextBase original_file_name ++ ".md"

/-- Source: `doc_data` of the reviewer endpoint (generate_controller.py 121-127). -/
def reviewerDocData (ι : Type) (user_id : String) (source_file_id newId : ι)
    (original_file_name : String) : DocData ι :=
  { user_id := user_id
    type := "reviewer"
    name := splitextBase (reviewerOutputFileName original_file_name)
    file_id := newId
    source_file_id := source_file_id }

/-- Source: `output_file_name` of the flashcards endpoint (generate_controller.py 307-308). -/
def flashcardsOutputFileName (original_file_name : String) : String :=
  "(Flashcards) " ++ splitextBase original_file_name ++ ".json"

/-- Source: `doc_data` of the flashcards endpoint (generate_controller.py 339-345). -/
def flashcardsDocData (ι : Type) (user_id : String) (source_file_id newId : ι)
    (original_file_name : String) : DocData ι :=
  { user_id := user_id
    type := "flashcards"
    name := splitextBase (flashcardsOutputFileName original_file_name)
    file_id := newId
    source_file_id := source_file_id }

/- ===================== Cloud controller endpoints ===================== -/

/-- The environment configuration read by cloud_controlller.py lines 15-17.
`FILE_COLLECTION_ID` has the default `"files"`, so it is a plain string;
the other two may be absent. -/
structure CloudConfig where
  bucketId : Option String
  databaseId : Option String
  collectionId : String

/-- Python falsiness of `os.environ.get(...)`: `None` or the empty string. -/
def falsyOpt : Option String → Bool
  | none => true
  | some s => s == ""

/-- Source: `missing_config` of the upload endpoint (cloud_controlller.py 26-32). -/
def uploadMissingConfig (cfg : CloudConfig) : List String :=
  (if falsyOpt cfg.bucketId then ["APPWRITE_BUCKET_ID"] else []) ++
  (if falsyOpt cfg.databaseId then ["APPWRITE_DATABASE_ID"] else []) ++
  (if cfg.collectionId == "" then ["FILE_COLLECTION_ID"] else [])

/-- The 500 raised on missing configuration (cloud_controlller.py 34-39). -/
def missingConfigHTTP (missing : List String) : HTTPError :=
  ⟨500, "Server Configuration Error: The backend is missing the following Appwrite environment IDs: " ++
    String.intercalate ", " missing ++ ". Please check your .env file or deployment setup."⟩

/-- External outcomes consumed by the upload endpoint.  `newId` is the
`ID.unique()` value generated before the `try` block; `fileRead` covers
`await file.read()` and the temp-file write; the two Appwrite calls follow. -/
structure UploadOracle where
  newId : String
  fileRead : Except String Unit
  createFile : Except AppwriteError Unit
  createDoc : Except AppwriteError Unit

/-- The success payload of the upload endpoint (cloud_controlller.py 91-96). -/
structure UploadSuccess where
  message : String
  file_id : String
  file_name : String
deriving DecidableEq, Repr

/-- Result of an upload request: the HTTP response plus the metadata record
written to the database (if the pipeline got that far). -/
structure UploadOutcome where
  response : Except HTTPError UploadSuccess
  createdDoc : Option (DocData String)

/-- Source: `upload_file_endpoint` (cloud_controlller.py 20-124). -/
def upload_file_endpoint (cfg : CloudConfig) (file_name user_id : String)
    (o : UploadOracle) : UploadOutcome :=
  if uploadMissingConfig cfg ≠ [] then
    ⟨.error (missingConfigHTTP (uploadMissingConfig cfg)), none⟩
  else
    match o.fileRead with
    | .error m =>
      ⟨.error ⟨500, "An unexpected server error occurred during file handling: " ++ m⟩, none⟩
    | .ok _ =>
      match o.createFile with
      | .error e => ⟨.error (cloudAppwriteHTTP "Storage/Database" e), none⟩
      | .ok _ =>
        match o.createDoc with
        | .error e => ⟨.error (cloudAppwriteHTTP "Storage/Database" e), none⟩
        | .ok _ =>
          ⟨.ok ⟨"File uploaded successfully and ready for processing.", o.newId, file_name⟩,
           some (uploadDocData String user_id o.newId file_name)⟩

/-- Source: `missing_config` of the listing/association endpoints
(cloud_controlller.py 135-139 and 349-353): database and collection only. -/
def dbMissingConfig (cfg : CloudConfig) : List String :=
  (if falsyOpt cfg.databaseId then ["APPWRITE_DATABASE_ID"] else []) ++
  (if cfg.collectionId == "" then ["FILE_COLLECTION_ID"] else [])

/-- Source: `files_listing_endpoint` (cloud_controlller.py 129-201).  `listDocs` is
the outcome of the `list_documents` query (already filtered and ordered by
the Appwrite queries); the response projects each record to
`(name, file_id)` (with `$updatedAt` and `$id` abstracted away). -/
def files_listing_endpoint (cfg : CloudConfig)
    (listDocs : Except AppwriteError (List (DocData String))) :
    Except HTTPError (List (String × String)) :=
  if dbMissingConfig cfg ≠ [] then
    .error (missingConfigHTTP (dbMissingConfig cfg))
  else
    match listDocs with
    | .error e => .error (cloudAppwriteHTTP "Database" e)
    | .ok docs => .ok (docs.map fun d => (d.name, d.file_id))

/-- Source: `file_association_endpoint` (cloud_controlller.py 344-416): same shape as
listing, projecting `(type, name, file_id)`. -/
def file_association_endpoint (cfg : CloudConfig)
    (listDocs : Except AppwriteError (List (DocData String))) :
    Except HTTPError (List (String × String × String)) :=
  if dbMissingConfig cfg ≠ [] then
    .error (missingConfigHTTP (dbMissingConfig cfg))
  else
    match listDocs with
    | .error e => .error (cloudAppwriteHTTP "Database" e)
    | .ok docs => .ok (docs.map fun d => (d.type, d.name, d.file_id))

/-- The `except AppwriteException` handler of the view endpoint
(cloud_controlller.py 293-325): 404 is specialized to an HTTP 404
"file not found", everything else uses the 400/500 code mapping.
Exceptions raised inside this handler are not caught by the later
`except Exception` clause of the same `try` statement. -/
def viewAppwriteHTTP (file_id : String) (e : AppwriteError) : HTTPError :=
  if e.code == 404 then
    ⟨404, "The requested file (ID: " ++ file_id ++ ") was not found in storage."⟩
  else cloudAppwriteHTTP "Storage" e

/-- External outcomes consumed by the view endpoint: `get_file_view` bytes,
then `get_file` metadata (its `mimeType` field, absent when the dict lacks
the key). -/
structure ViewOracle where
  view : Except AppwriteError (List Nat)
  meta : Except AppwriteError (Option String)

/-- The streaming response of the view endpoint: media type and
`Content-Length`. -/
structure ViewSuccess where
  mimeType : String
  contentLength : Nat
deriving DecidableEq, Repr

/-- Source: `view_file_endpoint` (cloud_controlller.py 203-341). -/
def view_file_endpoint (cfg : CloudConfig) (file_id : String) (o : ViewOracle) :
    Except HTTPError ViewSuccess :=
  if falsyOpt cfg.bucketId then
    .error ⟨500, "Server Configuration Error: APPWRITE_BUCKET_ID is missing."⟩
  else
    match o.view with
    | .error e => .error (viewAppwriteHTTP file_id e)
    | .ok bytes =>
      match o.meta with
      | .error e => .error (viewAppwriteHTTP file_id e)
      | .ok mime => .ok ⟨mime.getD "application/octet-stream", bytes.length⟩

/- ===================== Generation endpoints (generate_controller.py) ===================== -/

/-- External outcomes consumed by the two generation endpoints, in pipeline
order: `get_file` metadata (the stored file's `name`), `get_file_download`,
the `read_prompt` template text, the cleaning LLM call, the generation LLM
call (its raw string response; errors cover `read_prompt`, client
initialization and the request itself), the JSON well-formedness of the
flashcards response, `create_file` (yielding the new `$id`) and
`create_document`.  The converter output is a plain string because the
converters swallow their failures. -/
structure GenOracle where
  meta : Except AppwriteError String
  download : Except AppwriteError String
  convertedText : String
  basePrompt : String
  cleaned : Except String String
  generated : Except String String
  parseOk : Bool
  upload : Except AppwriteError String
  createDoc : Except AppwriteError Unit

/-- The `except AppwriteException` handler of the reviewer endpoint
(generate_controller.py 145-162): always HTTP 500, with a specialized
message for upstream 404.  (`e.response.decode` is abstracted to the
error's message.) -/
def reviewerAppwriteHTTP (e : AppwriteError) : HTTPError :=
  ⟨500, if e.code == 404 then "Source file not found in Appwrite Storage."
        else "Cloud API/DB Error: " ++ e.message⟩

/-- The `except Exception` handler of the reviewer endpoint
(generate_controller.py 163-168).  This clause also catches the
`HTTPException(400)` raised for unsupported file types inside the `try`
block, so that intended 400 is re-raised as a 500.  (Python's `str(e)`
rendering of the caught exception is abstracted to its message.) -/
def reviewerGenericHTTP (m : String) : HTTPError :=
  ⟨500, "Generation failed: " ++ m⟩

/-- Result of a reviewer-generation request: the HTTP response plus
observable side effects — whether `get_file_download` was called, whether an
LLM call was issued, and the metadata record written (if any). -/
structure ReviewerOutcome where
  response : Except HTTPError (String × String)
  downloadCalled : Bool
  llmCalled : Bool
  createdDoc : Option (DocData String)

/-- Source: `generate_reviewer_endpoint` (generate_controller.py 17-175).
The pipeline: metadata → extension check → download → convert → clean →
generate → upload → record; `AppwriteException` maps through
`reviewerAppwriteHTTP`, every other exception (including the in-`try`
`HTTPException(400)`) through `reviewerGenericHTTP`. -/
def generate_reviewer_endpoint (file_id user_id : String) (o : GenOracle) :
    ReviewerOutcome :=
  match o.meta with
  | .error e => ⟨.error (reviewerAppwriteHTTP e), false, false, none⟩
  | .ok original_file_name =>
    let file_type := fileTypeOf original_file_name
    if supportedTypes.contains file_type then
      match o.download with
      | .error e => ⟨.error (reviewerAppwriteHTTP e), true, false, none⟩
      | .ok _ =>
        match o.cleaned with
        | .error m => ⟨.error (reviewerGenericHTTP m), true, true, none⟩
        | .ok _ =>
          match o.generated with
          | .error m => ⟨.error (reviewerGenericHTTP m), true, true, none⟩
          | .ok _ =>
            match o.upload with
            | .error e => ⟨.error (reviewerAppwriteHTTP e), true, true, none⟩
            | .ok newId =>
              match o.createDoc with
              | .error e => ⟨.error (reviewerAppwriteHTTP e), true, true, none⟩
              | .ok _ =>
                ⟨.ok ("Reviewer generated and uploaded successfully.", newId),
                 true, true,
                 some (reviewerDocData String user_id file_id newId original_file_name)⟩
    else
      ⟨.error (reviewerGenericHTTP ("Unsupported file type: " ++ file_type)),
       false, false, none⟩

/-- The `except AppwriteException` handler of the flashcards endpoint
(generate_controller.py 364-374): always HTTP 500. -/
def flashcardsAppwriteHTTP (e : AppwriteError) : HTTPError :=
  ⟨500, if e.code == 404 then "Source reviewer file not found in Appwrite Storage."
        else "Appwrite Error: " ++ e.message⟩

/-- The `except Exception` handler of the flashcards endpoint
(generate_controller.py 375-380). -/
def flashcardsGenericHTTP (m : String) : HTTPError :=
  ⟨500, "Flashcard generation failed: " ++ m⟩

/-- The success payload of the flashcards endpoint; `flashcardsRaw` is the
LLM's JSON string (whose parsed form is returned to the client), empty on
the zero-count skip path. -/
structure FlashSuccess where
  message : String
  file_id : Option String
  flashcardsRaw : String
deriving DecidableEq, Repr

/-- What the `try/except` part of the flashcards endpoint produces, before
the `finally` block runs: the would-be response, the observable side
effects, and whether the local variable `temp_json_output_path` was
assigned (generate_controller.py line 309). -/
structure FlashBodyResult where
  response : Except HTTPError FlashSuccess
  downloadCalled : Bool
  llmCalled : Bool
  jsonPathAssigned : Bool
  createdDoc : Option (DocData String)

/-- The `try/except` part of `generate_flashcards_endpoint`
(generate_controller.py 178-380): clamp the four counts, build the config,
return the skip response when the clamped total is zero, otherwise run
metadata → extension check → download → convert → clean →
`generate_flashcards` → `json.loads` → upload → record. -/
def generate_flashcards_body (file_id user_id : String)
    (multiple_choice identification true_or_false enumeration : Int)
    (o : GenOracle) : FlashBodyResult :=
  let config := flashcardsConfigOf multiple_choice identification true_or_false enumeration
  if config.num_items = 0 then
    ⟨.ok ⟨"Flashcard generation skipped as all item counts are zero.", none, ""⟩,
     false, false, false, none⟩
  else
    match o.meta with
    | .error e => ⟨.error (flashcardsAppwriteHTTP e), false, false, false, none⟩
    | .ok original_file_name =>
      let file_type := fileTypeOf original_file_name
      if supportedTypes.contains file_type then
        match o.download with
        | .error e => ⟨.error (flashcardsAppwriteHTTP e), true, false, false, none⟩
        | .ok _ =>
          match o.cleaned with
          | .error m => ⟨.error (flashcardsGenericHTTP m), true, true, false, none⟩
          | .ok cleanText =>
            match generate_flashcards_gen (fun _ => o.generated) o.basePrompt cleanText config with
            | .error m => ⟨.error (flashcardsGenericHTTP m), true, true, false, none⟩
            | .ok raw =>
              if o.parseOk then
                match o.upload with
                | .error e => ⟨.error (flashcardsAppwriteHTTP e), true, true, true, none⟩
                | .ok newId =>
                  match o.createDoc with
                  | .error e => ⟨.error (flashcardsAppwriteHTTP e), true, true, true, none⟩
                  | .ok _ =>
                    ⟨.ok ⟨"Flashcards generated and uploaded successfully.", some newId, raw⟩,
                     true, true, true,
                     some (flashcardsDocData String user_id file_id newId original_file_name)⟩
              else
                ⟨.error ⟨500, "LLM returned malformed JSON for flashcards."⟩,
                 true, true, false, none⟩
      else
        ⟨.error (flashcardsGenericHTTP ("Unsupported file type: " ++ file_type)),
         false, false, false, none⟩

/-- FastAPI's generic 500 response for an exception that escapes the
endpoint entirely. -/
def unboundLocalHTTP : HTTPError := ⟨500, "Internal Server Error"⟩

/-- Result of a flashcards request as seen by the client. -/
structure FlashOutcome where
  response : Except HTTPError FlashSuccess
  downloadCalled : Bool
  llmCalled : Bool
  createdDoc : Option (DocData String)

/-- Source: `generate_flashcards_endpoint` (generate_controller.py 178-387),
including its `finally` block (lines 382-387): the block reads the local
variable `temp_json_output_path`, which is assigned only at line 309, so on
every path that ends before that line — the zero-count skip return included —
the `finally` block raises `UnboundLocalError`, discarding the pending
response, and the client receives FastAPI's generic 500. -/
def generate_flashcards_endpoint (file_id user_id : String)
    (multiple_choice identification true_or_false enumeration : Int)
    (o : GenOracle) : FlashOutcome :=
  let b := generate_flashcards_body file_id user_id
    multiple_choice identification true_or_false enumeration o
  ⟨if b.jsonPathAssigned then b.response else .error unboundLocalHTTP,
   b.downloadCalled, b.llmCalled, b.createdDoc⟩

/- ===================== DOCX download endpoint (convert_controller.py) ===================== -/

/-- External outcomes consumed by the DOCX download endpoint: `get_file`
metadata (the `name` field, possibly missing), `get_file_download` plus the
UTF-8 decode, and `convert_md_to_docx` (pypandoc), which re-raises. -/
structure DocxOracle where
  meta : Except AppwriteError (Option String)
  download : Except AppwriteError String
  convertResult : Except String Unit

/-- The `except AppwriteException` handler of the DOCX download endpoint
(convert_controller.py 122-131): always HTTP 500, specialized message on
upstream 404. -/
def docxAppwriteHTTP (e : AppwriteError) : HTTPError :=
  ⟨500, if e.code == 404 then "Reviewer file not found in cloud storage."
        else "Cloud Storage Error during content retrieval: " ++ e.message⟩

/-- The file response of the DOCX download endpoint. -/
structure DocxSuccess where
  filename : String
deriving DecidableEq, Repr

/-- Source: `output_filename` (convert_controller.py 100-102). -/
def docxOutputFilename (original_file_name : String) : String :=
  (splitextBase original_file_name).replace "(Reviewer) " "" ++ ".docx"

/-- Source: `download_reviewer_docx_endpoint` (convert_controller.py 38-142).
The missing-parameters 400 is raised before the `try` block, so it reaches
the client as a genuine 400; Appwrite failures during content retrieval map
to 500 via `docxAppwriteHTTP`; a conversion failure maps to 500. -/
def download_reviewer_docx_endpoint (reviewer_file_id content : Option String)
    (o : DocxOracle) : Except HTTPError DocxSuccess :=
  if falsyOpt content && falsyOpt reviewer_file_id then
    .error ⟨400, "Either \x27content\x27 or \x27reviewer_file_id\x27 must be provided for conversion."⟩
  else
    let defaultName := "downloaded_document.md"
    let afterName : String → Except HTTPError DocxSuccess := fun original_file_name =>
      match o.convertResult with
      | .error m => .error ⟨500, "Conversion failed: " ++ m⟩
      | .ok _ => .ok ⟨docxOutputFilename original_file_name⟩
    if falsyOpt content then
      -- Scenario 2: no content, fetch it by reviewer_file_id.
      match o.meta with
      | .error e => .error (docxAppwriteHTTP e)
      | .ok nameOpt =>
        match o.download with
        | .error e => .error (docxAppwriteHTTP e)
        | .ok _ =>
          afterName (match nameOpt with
            | some n => if n == "" then defaultName else n
            | none => defaultName)
    else
      if falsyOpt reviewer_file_id then
        -- Scenario 3: inline content only.
        afterName defaultName
      else
        -- Scenario 1: content provided, id used only for naming; metadata
        -- failures here are swallowed by the inner try/except.
        afterName (match o.meta with
          | .error _ =>
            "reviewer_file_" ++ (reviewer_file_id.getD "") ++ ".md"
          | .ok (some n) => if n == "" then defaultName else n
          | .ok none => defaultName)

/- ===================== System-level trace model (for C8/C9) ===================== -/

/-- A blob in the object store: opaque id, display name, content. -/
structure FileEntry where
  fid : Nat
  name : String
  content : String
deriving DecidableEq, Repr

/-- The externally visible state of the cloud backend: storage blobs,
metadata records, and a fresh-id counter standing for `ID.unique()`. -/
structure SysState where
  files : List FileEntry
  docs : List (DocData Nat)
  nextId : Nat
deriving Repr

def initState : SysState := ⟨[], [], 0⟩

/-- One successful-or-failed client request against the backend, restricted
to the three record-creating endpoints C8 talks about.  The `ok` flag stands
for the external calls up to and including `create_file` succeeding (an
earlier failure writes nothing, like omitting the step); the separate
`docOk` flag stands for the final `create_document` call succeeding.  There
is no transaction spanning the two stores, so `ok = true, docOk = false` is
the reachable partial-failure state in which a blob exists with no metadata
record. -/
inductive SysStep where
  | upload (user name content : String) (docOk : Bool)
  | genReviewer (user : String) (fid : Nat) (ok docOk : Bool)
  | genFlashcards (user : String) (fid : Nat) (mc idf tf en : Int) (ok docOk : Bool)

def findFile (s : SysState) (fid : Nat) : Option FileEntry :=
  s.files.find? (fun f => f.fid == fid)

/-- Effect of `upload_file_endpoint` on the backend: a new blob, plus its
`original` metadata record (`doc_data` of cloud_controlller.py 73-79) when
the `create_document` call succeeds.  When `create_document` fails
(cloud_controlller.py 82-88 raising into the handlers) the blob written by
`create_file` remains behind with no record. -/
def stepUpload (s : SysState) (user name content : String) (docOk : Bool) : SysState :=
  { files := s.files ++ [⟨s.nextId, name, content⟩]
    docs := s.docs ++ (if docOk then [uploadDocData Nat user s.nextId name] else [])
    nextId := s.nextId + 1 }

/-- Effect of `generate_reviewer_endpoint` on the backend: when the source
file exists, its extension is supported and the calls through `create_file`
succeed, a new `.md` blob is created, plus its `reviewer` record when
`create_document` also succeeds; otherwise nothing is written. -/
def stepGenReviewer (s : SysState) (user : String) (fid : Nat) (ok docOk : Bool) :
    SysState :=
  match findFile s fid with
  | none => s
  | some f =>
    if supportedTypes.contains (fileTypeOf f.name) && ok then
      { files := s.files ++ [⟨s.nextId, reviewerOutputFileName f.name, ""⟩]
        docs := s.docs ++ (if docOk then [reviewerDocData Nat user fid s.nextId f.name] else [])
        nextId := s.nextId + 1 }
    else s

/-- Effect of `generate_flashcards_endpoint` on the backend, analogously
(including the zero-count early return, which writes nothing). -/
def stepGenFlashcards (s : SysState) (user : String) (fid : Nat)
    (mc idf tf en : Int) (ok docOk : Bool) : SysState :=
  if (flashcardsConfigOf mc idf tf en).num_items = 0 then s
  else
    match findFile s fid with
    | none => s
    | some f =>
      if supportedTypes.contains (fileTypeOf f.name) && ok then
        { files := s.files ++ [⟨s.nextId, flashcardsOutputFileName f.name, ""⟩]
          docs := s.docs ++
            (if docOk then [flashcardsDocData Nat user fid s.nextId f.name] else [])
          nextId := s.nextId + 1 }
      else s

def sysStep (s : SysState) : SysStep → SysState
  | .upload u n c docOk => stepUpload s u n c docOk
  | .genReviewer u fid ok docOk => stepGenReviewer s u fid ok docOk
  | .genFlashcards u fid mc idf tf en ok docOk =>
    stepGenFlashcards s u fid mc idf tf en ok docOk

/-- Whether the step's `create_document` call succeeded. -/
def stepDocOk : SysStep → Bool
  | .upload _ _ _ docOk => docOk
  | .genReviewer _ _ _ docOk => docOk
  | .genFlashcards _ _ _ _ _ _ _ docOk => docOk

/-- The backend state after a sequence of requests against a fresh backend. -/
def runTrace (steps : List SysStep) : SysState := steps.foldl sysStep initState

/-- Source: `d0` is an `original`-type metadata record of blob `t`, pointing at
itself. -/
def isOriginalRecordFor (t : Nat) (d0 : DocData Nat) : Bool :=
  d0.type == "original" && d0.file_id == t && d0.source_file_id == d0.file_id

/-- C8's per-record property: an `original` record points at itself; a
`reviewer`/`flashcards` record points (in one step) at a blob that carries
an `original` record. -/
def docOkCheck (docs : List (DocData Nat)) (d : DocData Nat) : Bool :=
  (d.type == "original" && d.source_file_id == d.file_id) ||
  ((d.type == "reviewer" || d.type == "flashcards") &&
    docs.any (isOriginalRecordFor d.source_file_id))

/-- Auxiliary invariant: every blob either carries an `original` record or
has a name whose extension the generators reject (so it can never become the
source of a derived record). -/
def fileOkCheck (docs : List (DocData Nat)) (f : FileEntry) : Bool :=
  docs.any (isOriginalRecordFor f.fid) ||
  !(supportedTypes.contains (fileTypeOf f.name))

/-- The C8 invariant of a backend state (the claim as stated: every derived
record's source blob carries an `original`-type record). -/
def invCheck (s : SysState) : Bool :=
  s.docs.all (docOkCheck s.docs) && s.files.all (fileOkCheck s.docs)

/-- Any record that blob `t` carries is an `original`-type record pointing
at itself.  (Vacuously true of an orphaned blob with no record.) -/
def recordOfBlobIsOriginal (t : Nat) (d0 : DocData Nat) : Bool :=
  !(d0.file_id == t) || (d0.type == "original" && d0.source_file_id == d0.file_id)

/-- Per-record property that holds even across partial upload failures: a
derived record's source blob never carries anything but `original`-type
records — `source_file_id` never points at a derived artifact. -/
def sourceNotDerived (docs : List (DocData Nat)) (d : DocData Nat) : Bool :=
  (d.type == "original" && d.source_file_id == d.file_id) ||
  ((d.type == "reviewer" || d.type == "flashcards") &&
    docs.all (recordOfBlobIsOriginal d.source_file_id))

/-- Auxiliary invariant for the partial-failure model: every blob either
carries only `original`-type self-pointing records (possibly none, for an
orphan) or has a name whose extension the generators reject. -/
def fileOkCheckW (docs : List (DocData Nat)) (f : FileEntry) : Bool :=
  docs.all (recordOfBlobIsOriginal f.fid) ||
  !(supportedTypes.contains (fileTypeOf f.name))

/-- The invariant that survives record-write failures: the weak per-record
property, the weak per-blob property, and freshness of the id counter. -/
def weakInvCheck (s : SysState) : Bool :=
  s.docs.all (sourceNotDerived s.docs) &&
  s.files.all (fileOkCheckW s.docs) &&
  s.files.all (fun f => f.fid < s.nextId) &&
  s.docs.all (fun d => d.file_id < s.nextId && d.source_file_id < s.nextId)

/-- Modelled from the spec: `update_file_content_endpoint` is imported by
`main.py` (route PUT `/cloud/file/update`, JSON payload `file_id` and
`content`) but its definition is missing from the sources; the spec
describes it as "update a record's content by re-uploading a replacement
blob and pointing the existing metadata row at the new blob id", returning
an updated-record confirmation. -/
def update_file_content (s : SysState) (fid : Nat) (content : String) :
    SysState × Except HTTPError String :=
  match s.docs.find? (fun d => d.file_id == fid) with
  | none => (s, .error ⟨404, "File metadata record not found."⟩)
  | some d =>
    ({ files := s.files ++ [⟨s.nextId, d.name, content⟩]
       docs := s.docs.map (fun d2 =>
         if d2.file_id == fid then { d2 with file_id := s.nextId } else d2)
       nextId := s.nextId + 1 },
     .ok "File content updated successfully.")

/-- The status of an error response, `none` on success. -/
def errStatus {α : Type} : Except HTTPError α → Option Nat
  | .error e => some e.status
  | .ok _ => none

/- ===================== Cleaner run predicates and test oracles ===================== -/

/-- The head of the list, if any, does not satisfy `p`. -/
def headNot (p : Char → Bool) : List Char → Bool
  | [] => true
  | c :: _ => !p c

/-- No three consecutive line-break characters. -/
def noLB3 : List Char → Bool
  | a :: b :: c :: rest => (!(isLB a && isLB b && isLB c)) && noLB3 (b :: c :: rest)
  | _ => true

/-- No two consecutive horizontal-whitespace characters. -/
def noHT2 : List Char → Bool
  | a :: b :: rest => (!(isHT a && isHT b)) && noHT2 (b :: rest)
  | _ => true

/-- No tab characters at all. -/
def noTab (l : List Char) : Bool := l.all (fun c => !(c == '\t'))

/-- A fully cooperative external world whose stored file is named
`notes.csv`: metadata succeeds, and every later stage would succeed if
reached. -/
def csvOracle : GenOracle :=
  { meta := .ok "notes.csv"
    download := .ok ""
    convertedText := ""
    basePrompt := ""
    cleaned := .ok ""
    generated := .ok "[]"
    parseOk := true
    upload := .ok "new-id"
    createDoc := .ok () }

/-- A cooperative oracle whose only deviation is a metadata fetch failing
with the client-class upstream code 404. -/
def metaNotFoundOracle : GenOracle :=
  { csvOracle with meta := .error ⟨404, "not found"⟩ }

/- ===================== General helper lemmas ===================== -/

theorem string_ext {a b : String} (h : a.data = b.data) : a = b := by
  cases a; cases b; exact congrArg String.mk h

theorem stringFoldlAppend (l : List String) :
    ∀ a : String, l.foldl (· ++ ·) a = a ++ l.foldl (· ++ ·) "" := by
  induction l with
  | nil => intro a; simp [List.foldl]
  | cons s rest ih =>
    intro a
    rw [List.foldl_cons, List.foldl_cons, ih (a ++ s), ih ("" ++ s)]
    simp [String.append_assoc]

theorem stringJoin_cons (s : String) (l : List String) :
    String.join (s :: l) = s ++ String.join l := by
  simp only [String.join, List.foldl_cons]
  rw [stringFoldlAppend l ("" ++ s)]
  simp

/- ===================== C6: converters never raise ===================== -/

theorem convertLoop_characterization :
    ∀ (steps : List (Except String String)) (acc : String),
      convertLoop steps acc =
        acc ++ String.join ((steps.takeWhile Except.isOk).map fun s => okText s ++ "\n") := by
  intro steps
  induction steps with
  | nil => intro acc; simp [convertLoop, String.join]
  | cons step rest ih =>
    intro acc
    cases step with
    | error m =>
      simp [convertLoop, List.takeWhile_cons, Except.isOk, Except.toBool, String.join]
    | ok t =>
      simp only [convertLoop, List.takeWhile_cons, Except.isOk, Except.toBool,
        if_pos, List.map_cons]
      rw [ih, stringJoin_cons]
      simp [okText, String.append_assoc]

theorem pptxLoop_characterization :
    ∀ (slides : List (List (Except String (Option String)))) (acc : String),
      pptxLoop slides acc =
        acc ++ String.join (((slides.flatten).takeWhile Except.isOk).map shapeText) := by
  intro slides
  induction slides with
  | nil => intro acc; simp [pptxLoop, String.join]
  | cons slide rest ih =>
    have aux : ∀ (s : List (Except String (Option String))) (acc : String),
        pptxLoop.pptxSlide s rest acc =
          acc ++ String.join (((s ++ rest.flatten).takeWhile Except.isOk).map shapeText) := by
      intro s
      induction s with
      | nil => intro acc; simpa [pptxLoop.pptxSlide] using ih acc
      | cons step shapes ihs =>
        intro acc
        cases step with
        | error m =>
          simp [pptxLoop.pptxSlide, List.takeWhile_cons, Except.isOk, Except.toBool,
            String.join]
        | ok opt =>
          cases opt with
          | none =>
            simp only [pptxLoop.pptxSlide, List.cons_append, List.takeWhile_cons,
              Except.isOk, Except.toBool, if_pos, List.map_cons]
            rw [ihs, stringJoin_cons]
            simp [shapeText]
          | some t =>
            simp only [pptxLoop.pptxSlide, List.cons_append, List.takeWhile_cons,
              Except.isOk, Except.toBool, if_pos, List.map_cons]
            rw [ihs, stringJoin_cons]
            simp [shapeText, String.append_assoc]
    intro acc
    rw [pptxLoop]
    simpa using aux slide acc

/-- C6: for every supported input extension, the corresponding converter is a
total function of the external library's outcomes — it returns a string and
never propagates a failure.  The string is characterized as the
concatenation of the text of the units processed before the first internal
failure: empty when opening the document fails, partial when an extraction
step fails mid-way, complete otherwise. -/
theorem converters_swallow_failures :
    (∀ m, convert_pdf_to_txt (.error m) = "") ∧
    (∀ pages, convert_pdf_to_txt (.ok pages) =
      String.join ((pages.takeWhile Except.isOk).map fun s => okText s ++ "\n")) ∧
    (∀ m, convert_docx_to_txt (.error m) = "") ∧
    (∀ paras, convert_docx_to_txt (.ok paras) =
      String.join ((paras.takeWhile Except.isOk).map fun s => okText s ++ "\n")) ∧
    (∀ m, convert_pptx_to_txt (.error m) = "") ∧
    (∀ slides, convert_pptx_to_txt (.ok slides) =
      String.join (((slides.flatten).takeWhile Except.isOk).map shapeText)) ∧
    (∀ m, convert_txt_to_txt (.error m) = "") ∧
    (∀ t, convert_txt_to_txt (.ok t) = t) := by
  refine ⟨fun m => rfl, fun pages => ?_, fun m => rfl, fun paras => ?_,
    fun m => rfl, fun slides => ?_, fun m => rfl, fun t => rfl⟩
  · simpa using convertLoop_characterization pages ""
  · simpa using convertLoop_characterization paras ""
  · simpa using pptxLoop_characterization slides ""

/- ===================== C4: flashcard prompt for counts (2,1,0,1) ===================== -/

set_option maxRecDepth 4000

/-- C4: with per-type counts multiple_choice=2, identification=1,
true_or_false=0, enumeration=1, the generator derives the total as the sum
of the per-type counts (4), lists exactly the three positive types in the
fixed order, and the constructed prompt states "The total number of
flashcards to generate MUST be **4**." and mandates the output order
Multiple Choice, Identification, True or False, Enumeration (visible in the
trailing literal of the decomposition). -/
theorem flashcards_prompt_2101 :
    (flashEnabledAndTotal (flashcardsConfigOf 2 1 0 1)).2 = 4 ∧
    (flashEnabledAndTotal (flashcardsConfigOf 2 1 0 1)).1 =
      ["Multiple Choice (Quantity: 2)", "Identification (Quantity: 1)",
       "Enumeration (Quantity: 1)"] ∧
    ∀ b c : String,
      flashcardsFinalPrompt b c
        (flashEnabledAndTotal (flashcardsConfigOf 2 1 0 1)).1
        (flashEnabledAndTotal (flashcardsConfigOf 2 1 0 1)).2 =
      ("\n    " ++ b ++ "\n\n    --- INSTRUCTIONS ---\n    ") ++
      "1. The total number of flashcards to generate MUST be **4**." ++
      ("\n    2. The required breakdown of flashcard types and their exact quantities are:\n     * Multiple Choice (Quantity: 2)\n * Identification (Quantity: 1)\n * Enumeration (Quantity: 1)\n    3. **SORTING REQUIREMENT**: The flashcards in the JSON array MUST be sorted by \x27Type\x27 in the following order: **Multiple Choice, Identification, True or False, Enumeration**.\n    4. **QUANTITY REQUIREMENT**: Strictly adhere to the quantity specified for each type.\n\n    --- CONTENT TO ANALYZE ---\n    ---\n    " ++
       c ++ "\n    ---\n    ") := by
  refine ⟨by decide, by decide, fun b c => ?_⟩
  apply string_ext
  simp [flashcardsFinalPrompt, String.data_append,
    show (flashEnabledAndTotal (flashcardsConfigOf 2 1 0 1)).2 = 4 from by decide,
    show (flashEnabledAndTotal (flashcardsConfigOf 2 1 0 1)).1 =
      ["Multiple Choice (Quantity: 2)", "Identification (Quantity: 1)",
       "Enumeration (Quantity: 1)"] from by decide,
    show toString (4 : Int) = "4" from rfl,
    show String.intercalate "\n * "
        ["Multiple Choice (Quantity: 2)", "Identification (Quantity: 1)",
         "Enumeration (Quantity: 1)"] =
      "Multiple Choice (Quantity: 2)\n * Identification (Quantity: 1)\n * Enumeration (Quantity: 1)"
      from by decide]

/- ===================== C7: view of a missing file is 404 ===================== -/

/-- C7: when the upstream `get_file_view` call fails with code 404 (file id
not present in storage), the view endpoint returns HTTP 404 with a
file-not-found message — not a 500. -/
theorem view_missing_file_404 :
    ∀ (cfg : CloudConfig) (fid : String) (o : ViewOracle) (e : AppwriteError),
      falsyOpt cfg.bucketId = false →
      o.view = .error e → e.code = 404 →
      view_file_endpoint cfg fid o =
        .error ⟨404, "The requested file (ID: " ++ fid ++ ") was not found in storage."⟩ := by
  intro cfg fid o e hcfg hview hcode
  simp [view_file_endpoint, hcfg, hview, viewAppwriteHTTP, hcode]

theorem view_missing_file_404_witness :
    view_file_endpoint ⟨some "bucket", some "db", "files"⟩ "missing-id"
        ⟨.error ⟨404, "not found"⟩, .ok none⟩ =
      .error ⟨404, "The requested file (ID: " ++ "missing-id" ++ ") was not found in storage."⟩ :=
  view_missing_file_404 ⟨some "bucket", some "db", "files"⟩ "missing-id"
    ⟨.error ⟨404, "not found"⟩, .ok none⟩ ⟨404, "not found"⟩ rfl rfl rfl

/- ===================== C9: file update (spec-modelled) ===================== -/

/-- C9: the update operation re-uploads a replacement blob holding the new
content, points the existing metadata row at the new blob id, and returns an
updated-record confirmation.  (`update_file_content` is modelled from the
spec because the endpoint's definition is absent from the sources.) -/
theorem update_file_content_spec :
    ∀ (s : SysState) (fid : Nat) (content : String) (d : DocData Nat),
      s.docs.find? (fun d2 => d2.file_id == fid) = some d →
      (update_file_content s fid content).2 = .ok "File content updated successfully." ∧
      (⟨s.nextId, d.name, content⟩ : FileEntry) ∈ (update_file_content s fid content).1.files ∧
      { d with file_id := s.nextId } ∈ (update_file_content s fid content).1.docs := by
  intro s fid content d hfind
  have hd : (d.file_id == fid) = true := by
    have h := List.find?_some hfind
    simpa using h
  have hmem : d ∈ s.docs := List.mem_of_find?_eq_some hfind
  refine ⟨by simp [update_file_content, hfind], ?_, ?_⟩
  · simp [update_file_content, hfind]
  · simp only [update_file_content, hfind]
    have := List.mem_map_of_mem
      (fun d2 => if d2.file_id == fid then { d2 with file_id := s.nextId } else d2) hmem
    simpa [hd] using this

theorem update_file_content_spec_witness :
    (update_file_content ⟨[⟨5, "Lesson 1", "old"⟩],
        [⟨"u1", "original", "Lesson 1", 5, 5⟩], 6⟩ 5 "new content").2 =
      .ok "File content updated successfully." ∧
    (⟨6, "Lesson 1", "new content"⟩ : FileEntry) ∈
      (update_file_content ⟨[⟨5, "Lesson 1", "old"⟩],
        [⟨"u1", "original", "Lesson 1", 5, 5⟩], 6⟩ 5 "new content").1.files ∧
    ({ user_id := "u1", type := "original", name := "Lesson 1",
       file_id := 6, source_file_id := 5 } : DocData Nat) ∈
      (update_file_content ⟨[⟨5, "Lesson 1", "old"⟩],
        [⟨"u1", "original", "Lesson 1", 5, 5⟩], 6⟩ 5 "new content").1.docs :=
  update_file_content_spec ⟨[⟨5, "Lesson 1", "old"⟩],
    [⟨"u1", "original", "Lesson 1", 5, 5⟩], 6⟩ 5 "new content"
    ⟨"u1", "original", "Lesson 1", 5, 5⟩ rfl

/- ===================== C1: unsupported extension on generation ===================== -/


/-- C1 evaluation at the failing input: for a stored file named `notes.csv`
(extension outside {pdf, pptx, docx, txt}) both generation endpoints refuse
before calling `get_file_download` — but the `HTTPException(400)` they raise
for it is swallowed by their own `except Exception` clause, so the client
receives a 500, not the 400-class error the endpoints construct (and, for
flashcards, the `finally` block's unbound `temp_json_output_path` replaces
even that 500 with a bare internal 500). -/
theorem unsupported_extension_observed :
    errStatus (generate_reviewer_endpoint "f1" "u1" csvOracle).response = some 500 ∧
    (generate_reviewer_endpoint "f1" "u1" csvOracle).response =
      .error (reviewerGenericHTTP "Unsupported file type: csv") ∧
    (generate_reviewer_endpoint "f1" "u1" csvOracle).downloadCalled = false ∧
    errStatus (generate_flashcards_endpoint "f1" "u1" 10 10 10 10 csvOracle).response = some 500 ∧
    (generate_flashcards_body "f1" "u1" 10 10 10 10 csvOracle).response =
      .error (flashcardsGenericHTTP "Unsupported file type: csv") ∧
    (generate_flashcards_endpoint "f1" "u1" 10 10 10 10 csvOracle).response =
      .error unboundLocalHTTP ∧
    (generate_flashcards_endpoint "f1" "u1" 10 10 10 10 csvOracle).downloadCalled = false :=
  ⟨rfl, rfl, rfl, rfl, rfl, rfl, rfl⟩

/- ===================== C2: all-zero flashcard counts ===================== -/

theorem clamp_quiz_items_nonneg (v : Int) : 0 ≤ clamp_quiz_items v :=
  le_max_left 0 (min 100 v)

/-- C2 counterexample to the claim as stated: with all four counts 0 the
try/except part of the endpoint produces a success "skipped" response — not
a ValueError-class failure — before any storage or LLM call; the eventual
500 the client sees comes from the `finally` block's `UnboundLocalError`,
not from a ValueError. -/
theorem flashcards_zero_counts_no_valueerror :
    (generate_flashcards_body "f1" "u1" 0 0 0 0 csvOracle).response =
      .ok ⟨"Flashcard generation skipped as all item counts are zero.", none, ""⟩ ∧
    (generate_flashcards_endpoint "f1" "u1" 0 0 0 0 csvOracle).response =
      .error unboundLocalHTTP ∧
    (generate_flashcards_endpoint "f1" "u1" 0 0 0 0 csvOracle).llmCalled = false ∧
    (generate_flashcards_endpoint "f1" "u1" 0 0 0 0 csvOracle).downloadCalled = false :=
  ⟨rfl, rfl, rfl, rfl⟩

/-- C2 amended: when the four per-type counts clamp to total zero, the
endpoint returns early before any storage or LLM call — the early return is
a success "skipped" response (which the buggy `finally` block then turns
into a generic 500) — while the generator function `generate_flashcards`
itself would raise its ValueError-class error for such a configuration, but
is never invoked by the endpoint on this path. -/
theorem flashcards_zero_counts_behavior :
    ∀ (mc idf tf en : Int) (fid uid : String) (o : GenOracle),
      (flashcardsConfigOf mc idf tf en).num_items = 0 →
      ((generate_flashcards_body fid uid mc idf tf en o).response =
          .ok ⟨"Flashcard generation skipped as all item counts are zero.", none, ""⟩ ∧
       (generate_flashcards_body fid uid mc idf tf en o).llmCalled = false ∧
       (generate_flashcards_body fid uid mc idf tf en o).downloadCalled = false ∧
       (generate_flashcards_endpoint fid uid mc idf tf en o).response =
          .error unboundLocalHTTP ∧
       (generate_flashcards_endpoint fid uid mc idf tf en o).llmCalled = false) ∧
      ∀ (llm : String → Except String String) (bp ct : String),
        generate_flashcards_gen llm bp ct (flashcardsConfigOf mc idf tf en) =
          .error "The total number of flashcard items requested is zero." := by
  intro mc idf tf en fid uid o h
  have hzero : clamp_quiz_items mc = 0 ∧ clamp_quiz_items idf = 0 ∧
      clamp_quiz_items tf = 0 ∧ clamp_quiz_items en = 0 := by
    have h1 := clamp_quiz_items_nonneg mc
    have h2 := clamp_quiz_items_nonneg idf
    have h3 := clamp_quiz_items_nonneg tf
    have h4 := clamp_quiz_items_nonneg en
    simp only [flashcardsConfigOf] at h
    omega
  obtain ⟨h1, h2, h3, h4⟩ := hzero
  constructor
  · refine ⟨?_, ?_, ?_, ?_, ?_⟩ <;>
      simp [generate_flashcards_body, generate_flashcards_endpoint, h]
  · intro llm bp ct
    have htot : flashEnabledAndTotal (flashcardsConfigOf mc idf tf en) = ([], 0) := by
      simp [flashEnabledAndTotal, flashTypeCounts, flashcardsConfigOf, h1, h2, h3, h4]
    simp [generate_flashcards_gen, htot]

theorem flashcards_zero_counts_behavior_witness :
    (((generate_flashcards_body "f1" "u1" 0 (-3) 0 0 csvOracle).response =
        .ok ⟨"Flashcard generation skipped as all item counts are zero.", none, ""⟩ ∧
      (generate_flashcards_body "f1" "u1" 0 (-3) 0 0 csvOracle).llmCalled = false ∧
      (generate_flashcards_body "f1" "u1" 0 (-3) 0 0 csvOracle).downloadCalled = false ∧
      (generate_flashcards_endpoint "f1" "u1" 0 (-3) 0 0 csvOracle).response =
        .error unboundLocalHTTP ∧
      (generate_flashcards_endpoint "f1" "u1" 0 (-3) 0 0 csvOracle).llmCalled = false) ∧
     ∀ (llm : String → Except String String) (bp ct : String),
       generate_flashcards_gen llm bp ct (flashcardsConfigOf 0 (-3) 0 0) =
         .error "The total number of flashcard items requested is zero.") :=
  flashcards_zero_counts_behavior 0 (-3) 0 0 "f1" "u1" csvOracle (by decide)

/- ===================== C3: AppwriteException status mapping ===================== -/


/-- C3 counterexample to the claim as stated: the reviewer generation
endpoint receives an `AppwriteException` with the client-class code 404 and
returns HTTP 500, not the HTTP 400 the claim prescribes for every
endpoint. -/
theorem reviewer_client_error_not_400 :
    errStatus (generate_reviewer_endpoint "f1" "u1" metaNotFoundOracle).response = some 500 ∧
    ((404 : Int) < 500) ∧
    ¬ errStatus (generate_reviewer_endpoint "f1" "u1" metaNotFoundOracle).response = some 400 :=
  ⟨rfl, by decide, by decide⟩

/-- C3 amended: the cloud-file endpoints (upload, list, view, associate) map
an `AppwriteException` to HTTP 400 when the upstream code is below 500 and
to HTTP 500 otherwise, surfacing the upstream code and message in the
detail (the view endpoint first specializes upstream 404 into its own
HTTP 404); the generation endpoints and the DOCX download endpoint instead
map every `AppwriteException` to HTTP 500. -/
theorem appwrite_error_mapping :
    (∀ (cfg : CloudConfig) (fn uid : String) (o : UploadOracle) (e : AppwriteError),
      uploadMissingConfig cfg = [] → o.fileRead = .ok () → o.createFile = .error e →
      (upload_file_endpoint cfg fn uid o).response =
        .error ⟨if e.code < 500 then 400 else 500,
          appwriteFailureDetail "Storage/Database" e⟩) ∧
    (∀ (cfg : CloudConfig) (e : AppwriteError), dbMissingConfig cfg = [] →
      files_listing_endpoint cfg (.error e) =
        .error ⟨if e.code < 500 then 400 else 500, appwriteFailureDetail "Database" e⟩) ∧
    (∀ (cfg : CloudConfig) (e : AppwriteError), dbMissingConfig cfg = [] →
      file_association_endpoint cfg (.error e) =
        .error ⟨if e.code < 500 then 400 else 500, appwriteFailureDetail "Database" e⟩) ∧
    (∀ (cfg : CloudConfig) (fid : String) (o : ViewOracle) (e : AppwriteError),
      falsyOpt cfg.bucketId = false → o.view = .error e → ¬ e.code = 404 →
      view_file_endpoint cfg fid o =
        .error ⟨if e.code < 500 then 400 else 500, appwriteFailureDetail "Storage" e⟩) ∧
    (∀ (fid uid : String) (o : GenOracle) (e : AppwriteError),
      o.meta = .error e →
      errStatus (generate_reviewer_endpoint fid uid o).response = some 500) ∧
    (∀ (fid uid : String) (mc idf tf en : Int) (o : GenOracle) (e : AppwriteError),
      o.meta = .error e →
      errStatus (generate_flashcards_endpoint fid uid mc idf tf en o).response = some 500) ∧
    (∀ (rid : String) (o : DocxOracle) (e : AppwriteError),
      ¬ rid = "" → o.meta = .error e →
      errStatus (download_reviewer_docx_endpoint (some rid) none o) = some 500) := by
  refine ⟨?_, ?_, ?_, ?_, ?_, ?_, ?_⟩
  · intro cfg fn uid o e hcfg hread hcreate
    simp [upload_file_endpoint, hcfg, hread, hcreate, cloudAppwriteHTTP, appwriteStatusOf]
  · intro cfg e hcfg
    simp [files_listing_endpoint, hcfg, cloudAppwriteHTTP, appwriteStatusOf]
  · intro cfg e hcfg
    simp [file_association_endpoint, hcfg, cloudAppwriteHTTP, appwriteStatusOf]
  · intro cfg fid o e hcfg hview hcode
    simp [view_file_endpoint, hcfg, hview, viewAppwriteHTTP, hcode,
      cloudAppwriteHTTP, appwriteStatusOf]
  · intro fid uid o e hmeta
    simp [generate_reviewer_endpoint, hmeta, reviewerAppwriteHTTP, errStatus]
  · intro fid uid mc idf tf en o e hmeta
    by_cases hz : (flashcardsConfigOf mc idf tf en).num_items = 0
    · simp [generate_flashcards_endpoint, generate_flashcards_body, hz,
        unboundLocalHTTP, errStatus]
    · simp [generate_flashcards_endpoint, generate_flashcards_body, hz, hmeta,
        unboundLocalHTTP, errStatus]
  · intro rid o e hrid hmeta
    simp [download_reviewer_docx_endpoint, falsyOpt, hrid, hmeta,
      docxAppwriteHTTP, errStatus]

theorem appwrite_error_mapping_witness :
    ((upload_file_endpoint ⟨some "b", some "d", "files"⟩ "a.pdf" "u1"
        ⟨"nid", .ok (), .error ⟨404, "m"⟩, .ok ()⟩).response =
      .error ⟨if (404 : Int) < 500 then 400 else 500,
        appwriteFailureDetail "Storage/Database" ⟨404, "m"⟩⟩) ∧
    (files_listing_endpoint ⟨some "b", some "d", "files"⟩ (.error ⟨503, "m"⟩) =
      .error ⟨if (503 : Int) < 500 then 400 else 500,
        appwriteFailureDetail "Database" ⟨503, "m"⟩⟩) ∧
    (file_association_endpoint ⟨some "b", some "d", "files"⟩ (.error ⟨401, "m"⟩) =
      .error ⟨if (401 : Int) < 500 then 400 else 500,
        appwriteFailureDetail "Database" ⟨401, "m"⟩⟩) ∧
    (view_file_endpoint ⟨some "b", some "d", "files"⟩ "f1"
        ⟨.error ⟨403, "m"⟩, .ok none⟩ =
      .error ⟨if (403 : Int) < 500 then 400 else 500,
        appwriteFailureDetail "Storage" ⟨403, "m"⟩⟩) ∧
    (errStatus (generate_reviewer_endpoint "f1" "u1" metaNotFoundOracle).response =
      some 500) ∧
    (errStatus (generate_flashcards_endpoint "f1" "u1" 10 10 10 10
        metaNotFoundOracle).response = some 500) ∧
    (errStatus (download_reviewer_docx_endpoint (some "r1") none
        ⟨.error ⟨404, "m"⟩, .ok "", .ok ()⟩) = some 500) := by
  obtain ⟨h1, h2, h3, h4, h5, h6, h7⟩ := appwrite_error_mapping
  exact ⟨h1 _ "a.pdf" "u1" _ ⟨404, "m"⟩ rfl rfl rfl,
    h2 _ ⟨503, "m"⟩ rfl,
    h3 _ ⟨401, "m"⟩ rfl,
    h4 _ "f1" _ ⟨403, "m"⟩ rfl rfl (by decide),
    h5 "f1" "u1" _ ⟨404, "not found"⟩ rfl,
    h6 "f1" "u1" 10 10 10 10 _ ⟨404, "not found"⟩ rfl,
    h7 "r1" _ ⟨404, "m"⟩ (by decide) rfl⟩

/- ===================== C8: metadata record derivation ===================== -/

/-- A reviewer output name always carries the extension `md`, which the
generators reject as a source type. -/
theorem fileTypeOf_reviewerOutput (n : String) :
    fileTypeOf (reviewerOutputFileName n) = "md" := by
  have hd : ("(Reviewer) " ++ splitextBase n ++ ".md").data =
      "(Reviewer) ".data ++ (splitextBase n).data ++ ".md".data := by
    simp [String.data_append]
  unfold reviewerOutputFileName fileTypeOf splitextExtData
  rw [hd]
  simp only [List.reverse_append]
  simp [List.takeWhile, List.dropWhile, List.any_append]

/-- A flashcards output name always carries the extension `json`. -/
theorem fileTypeOf_flashcardsOutput (n : String) :
    fileTypeOf (flashcardsOutputFileName n) = "json" := by
  have hd : ("(Flashcards) " ++ splitextBase n ++ ".json").data =
      "(Flashcards) ".data ++ (splitextBase n).data ++ ".json".data := by
    simp [String.data_append]
  unfold flashcardsOutputFileName fileTypeOf splitextExtData
  rw [hd]
  simp only [List.reverse_append]
  simp [List.takeWhile, List.dropWhile, List.any_append]

theorem docOkCheck_mono (docs l2 : List (DocData Nat)) (d : DocData Nat)
    (h : docOkCheck docs d = true) : docOkCheck (docs ++ l2) d = true := by
  simp only [docOkCheck, Bool.or_eq_true, Bool.and_eq_true, List.any_append] at h ⊢
  rcases h with h | ⟨ht, ha⟩
  · exact Or.inl h
  · exact Or.inr ⟨ht, Or.inl ha⟩

theorem fileOkCheck_mono (docs l2 : List (DocData Nat)) (f : FileEntry)
    (h : fileOkCheck docs f = true) : fileOkCheck (docs ++ l2) f = true := by
  simp only [fileOkCheck, Bool.or_eq_true, List.any_append] at h ⊢
  rcases h with h | h
  · exact Or.inl (Or.inl h)
  · exact Or.inr h

theorem invCheck_upload (s : SysState) (u n c : String) (h : invCheck s = true) :
    invCheck (stepUpload s u n c true) = true := by
  show invCheck ⟨s.files ++ [⟨s.nextId, n, c⟩],
    s.docs ++ [uploadDocData Nat u s.nextId n], s.nextId + 1⟩ = true
  simp only [invCheck, Bool.and_eq_true, List.all_eq_true] at h ⊢
  obtain ⟨hdocs, hfiles⟩ := h
  constructor
  · intro d hd
    rcases List.mem_append.mp hd with hd | hd
    · exact docOkCheck_mono _ _ _ (hdocs d hd)
    · simp only [List.mem_singleton] at hd
      subst hd
      simp [docOkCheck, uploadDocData]
  · intro f hf
    rcases List.mem_append.mp hf with hf | hf
    · exact fileOkCheck_mono _ _ _ (hfiles f hf)
    · simp only [List.mem_singleton] at hf
      subst hf
      simp only [fileOkCheck, List.any_append, Bool.or_eq_true]
      exact Or.inl (Or.inr (by simp [uploadDocData, isOriginalRecordFor]))

theorem invCheck_genReviewer (s : SysState) (u : String) (fid : Nat) (ok : Bool)
    (h : invCheck s = true) : invCheck (stepGenReviewer s u fid ok true) = true := by
  unfold stepGenReviewer
  split
  · exact h
  · next f hfind =>
    split
    · next hcond =>
      show invCheck ⟨s.files ++ [⟨s.nextId, reviewerOutputFileName f.name, ""⟩],
        s.docs ++ [reviewerDocData Nat u fid s.nextId f.name], s.nextId + 1⟩ = true
      have hsupp : supportedTypes.contains (fileTypeOf f.name) = true :=
        ((Bool.and_eq_true _ _).mp hcond).1
      have hfmem : f ∈ s.files := List.mem_of_find?_eq_some hfind
      have hffid : f.fid = fid := by
        have hx := List.find?_some hfind
        simpa using hx
      simp only [invCheck, Bool.and_eq_true, List.all_eq_true] at h ⊢
      obtain ⟨hdocs, hfiles⟩ := h
      have hsrc : s.docs.any (isOriginalRecordFor fid) = true := by
        have hok := hfiles f hfmem
        simp only [fileOkCheck, Bool.or_eq_true] at hok
        rcases hok with hok | hok
        · rw [← hffid]; exact hok
        · rw [hsupp] at hok; simp at hok
      constructor
      · intro d hd
        rcases List.mem_append.mp hd with hd | hd
        · exact docOkCheck_mono _ _ _ (hdocs d hd)
        · simp only [List.mem_singleton] at hd
          subst hd
          simp only [docOkCheck, reviewerDocData, List.any_append, Bool.or_eq_true,
            Bool.and_eq_true]
          refine Or.inr ⟨by simp, Or.inl ?_⟩
          simpa using hsrc
      · intro f2 hf2
        rcases List.mem_append.mp hf2 with hf2 | hf2
        · exact fileOkCheck_mono _ _ _ (hfiles f2 hf2)
        · simp only [List.mem_singleton] at hf2
          subst hf2
          simp [fileOkCheck, fileTypeOf_reviewerOutput, supportedTypes]
    · exact h

theorem invCheck_genFlashcards (s : SysState) (u : String) (fid : Nat)
    (mc idf tf en : Int) (ok : Bool) (h : invCheck s = true) :
    invCheck (stepGenFlashcards s u fid mc idf tf en ok true) = true := by
  unfold stepGenFlashcards
  split
  · exact h
  · split
    · exact h
    · next f hfind =>
      split
      · next hcond =>
        show invCheck ⟨s.files ++ [⟨s.nextId, flashcardsOutputFileName f.name, ""⟩],
          s.docs ++ [flashcardsDocData Nat u fid s.nextId f.name], s.nextId + 1⟩ = true
        have hsupp : supportedTypes.contains (fileTypeOf f.name) = true :=
          ((Bool.and_eq_true _ _).mp hcond).1
        have hfmem : f ∈ s.files := List.mem_of_find?_eq_some hfind
        have hffid : f.fid = fid := by
          have hx := List.find?_some hfind
          simpa using hx
        simp only [invCheck, Bool.and_eq_true, List.all_eq_true] at h ⊢
        obtain ⟨hdocs, hfiles⟩ := h
        have hsrc : s.docs.any (isOriginalRecordFor fid) = true := by
          have hok := hfiles f hfmem
          simp only [fileOkCheck, Bool.or_eq_true] at hok
          rcases hok with hok | hok
          · rw [← hffid]; exact hok
          · rw [hsupp] at hok; simp at hok
        constructor
        · intro d hd
          rcases List.mem_append.mp hd with hd | hd
          · exact docOkCheck_mono _ _ _ (hdocs d hd)
          · simp only [List.mem_singleton] at hd
            subst hd
            simp only [docOkCheck, flashcardsDocData, List.any_append, Bool.or_eq_true,
              Bool.and_eq_true]
            refine Or.inr ⟨by simp, Or.inl ?_⟩
            simpa using hsrc
        · intro f2 hf2
          rcases List.mem_append.mp hf2 with hf2 | hf2
          · exact fileOkCheck_mono _ _ _ (hfiles f2 hf2)
          · simp only [List.mem_singleton] at hf2
            subst hf2
            simp [fileOkCheck, fileTypeOf_flashcardsOutput, supportedTypes]
      · exact h

theorem invCheck_sysStep (s : SysState) (e : SysStep) (hdo : stepDocOk e = true)
    (h : invCheck s = true) : invCheck (sysStep s e) = true := by
  cases e with
  | upload u n c docOk =>
    have hd : docOk = true := by simpa [stepDocOk] using hdo
    subst hd
    exact invCheck_upload s u n c h
  | genReviewer u fid ok docOk =>
    have hd : docOk = true := by simpa [stepDocOk] using hdo
    subst hd
    exact invCheck_genReviewer s u fid ok h
  | genFlashcards u fid mc idf tf en ok docOk =>
    have hd : docOk = true := by simpa [stepDocOk] using hdo
    subst hd
    exact invCheck_genFlashcards s u fid mc idf tf en ok h

theorem recordOfBlobIsOriginal_ne {t : Nat} {d0 : DocData Nat}
    (h : (d0.file_id == t) = false) : recordOfBlobIsOriginal t d0 = true := by
  simp [recordOfBlobIsOriginal, h]

theorem sourceNotDerived_append {docs D : List (DocData Nat)} {d : DocData Nat}
    (h : sourceNotDerived docs d = true)
    (hD : D.all (recordOfBlobIsOriginal d.source_file_id) = true) :
    sourceNotDerived (docs ++ D) d = true := by
  simp only [sourceNotDerived, Bool.or_eq_true, Bool.and_eq_true, List.all_append] at h ⊢
  rcases h with h | ⟨ht, ha⟩
  · exact Or.inl h
  · exact Or.inr ⟨ht, by simp [ha, hD]⟩

theorem fileOkCheckW_append {docs D : List (DocData Nat)} {f : FileEntry}
    (h : fileOkCheckW docs f = true)
    (hD : D.all (recordOfBlobIsOriginal f.fid) = true) :
    fileOkCheckW (docs ++ D) f = true := by
  simp only [fileOkCheckW, Bool.or_eq_true, List.all_append] at h ⊢
  rcases h with h | h
  · exact Or.inl (by simp [h, hD])
  · exact Or.inr h
theorem weakInv_extend (s : SysState) (nf : FileEntry) (D : List (DocData Nat))
    (h : weakInvCheck s = true)
    (hnf : nf.fid = s.nextId)
    (hDco : ∀ t, t < s.nextId → ∀ d0 ∈ D, recordOfBlobIsOriginal t d0 = true)
    (hnfOk : (∀ d0 ∈ D, recordOfBlobIsOriginal s.nextId d0 = true) ∨
      supportedTypes.contains (fileTypeOf nf.name) = false)
    (hDsnd : ∀ d ∈ D, sourceNotDerived (s.docs ++ D) d = true)
    (hDfresh : ∀ d ∈ D, d.file_id < s.nextId + 1 ∧ d.source_file_id < s.nextId + 1) :
    weakInvCheck ⟨s.files ++ [nf], s.docs ++ D, s.nextId + 1⟩ = true := by
  simp only [weakInvCheck, Bool.and_eq_true, List.all_eq_true, decide_eq_true_eq] at h ⊢
  obtain ⟨⟨⟨hdocs, hfilesW⟩, hff⟩, hdf⟩ := h
  refine ⟨⟨⟨?_, ?_⟩, ?_⟩, ?_⟩
  · intro d hd
    rcases List.mem_append.mp hd with hd | hd
    · refine sourceNotDerived_append (hdocs d hd) ?_
      rw [List.all_eq_true]
      exact hDco _ (hdf d hd).2
    · exact hDsnd d hd
  · intro f2 hf2
    rcases List.mem_append.mp hf2 with hf2 | hf2
    · refine fileOkCheckW_append (hfilesW f2 hf2) ?_
      rw [List.all_eq_true]
      exact hDco _ (hff f2 hf2)
    · simp only [List.mem_singleton] at hf2
      subst hf2
      simp only [fileOkCheckW, Bool.or_eq_true, List.all_append, Bool.and_eq_true]
      rw [hnf]
      rcases hnfOk with hnfOk | hnfOk
      · refine Or.inl ⟨?_, List.all_eq_true.mpr hnfOk⟩
        rw [List.all_eq_true]
        intro d0 hd0
        refine recordOfBlobIsOriginal_ne ?_
        rw [beq_eq_false_iff_ne]
        have := (hdf d0 hd0).1
        omega
      · refine Or.inr ?_
        rw [hnfOk]
        rfl
  · intro f2 hf2
    rcases List.mem_append.mp hf2 with hf2 | hf2
    · exact Nat.lt_succ_of_lt (hff f2 hf2)
    · simp only [List.mem_singleton] at hf2
      subst hf2
      rw [hnf]
      exact Nat.lt_succ_self _
  · intro d hd
    rcases List.mem_append.mp hd with hd | hd
    · obtain ⟨h1, h2⟩ := hdf d hd
      exact ⟨Nat.lt_succ_of_lt h1, Nat.lt_succ_of_lt h2⟩
    · exact hDfresh d hd

theorem weakInv_upload (s : SysState) (u n c : String) (docOk : Bool)
    (h : weakInvCheck s = true) : weakInvCheck (stepUpload s u n c docOk) = true := by
  cases docOk with
  | false =>
    show weakInvCheck ⟨s.files ++ [⟨s.nextId, n, c⟩], s.docs ++ [], s.nextId + 1⟩ = true
    refine weakInv_extend s _ [] h rfl ?_ ?_ ?_ ?_
    · intro t _ d0 hd0; simp at hd0
    · exact Or.inl (fun d0 hd0 => by simp at hd0)
    · intro d hd; simp at hd
    · intro d hd; simp at hd
  | true =>
    show weakInvCheck ⟨s.files ++ [⟨s.nextId, n, c⟩],
      s.docs ++ [uploadDocData Nat u s.nextId n], s.nextId + 1⟩ = true
    refine weakInv_extend s _ _ h rfl ?_ ?_ ?_ ?_
    · intro t _ d0 hd0
      simp only [List.mem_singleton] at hd0
      subst hd0
      simp [recordOfBlobIsOriginal, uploadDocData]
    · refine Or.inl ?_
      intro d0 hd0
      simp only [List.mem_singleton] at hd0
      subst hd0
      simp [recordOfBlobIsOriginal, uploadDocData]
    · intro d hd
      simp only [List.mem_singleton] at hd
      subst hd
      simp [sourceNotDerived, uploadDocData]
    · intro d hd
      simp only [List.mem_singleton] at hd
      subst hd
      exact ⟨Nat.lt_succ_self _, Nat.lt_succ_self _⟩

theorem weakInv_genReviewer (s : SysState) (u : String) (fid : Nat) (ok docOk : Bool)
    (h : weakInvCheck s = true) :
    weakInvCheck (stepGenReviewer s u fid ok docOk) = true := by
  unfold stepGenReviewer
  split
  · exact h
  · next f hfind =>
    split
    · next hcond =>
      have hsupp : supportedTypes.contains (fileTypeOf f.name) = true :=
        ((Bool.and_eq_true _ _).mp hcond).1
      have hfmem : f ∈ s.files := List.mem_of_find?_eq_some hfind
      have hffid : f.fid = fid := by
        have hx := List.find?_some hfind
        simpa using hx
      have hw := h
      simp only [weakInvCheck, Bool.and_eq_true, List.all_eq_true, decide_eq_true_eq] at hw
      obtain ⟨⟨⟨hdocs, hfilesW⟩, hff⟩, hdf⟩ := hw
      have hfidlt : fid < s.nextId := hffid ▸ hff f hfmem
      have hsrc : ∀ d0 ∈ s.docs, recordOfBlobIsOriginal fid d0 = true := by
        have hok := hfilesW f hfmem
        simp only [fileOkCheckW, Bool.or_eq_true, List.all_eq_true] at hok
        rcases hok with hok | hok
        · intro d0 hd0
          rw [← hffid]
          exact hok d0 hd0
        · rw [hsupp] at hok; simp at hok
      cases docOk with
      | false =>
        show weakInvCheck ⟨s.files ++ [⟨s.nextId, reviewerOutputFileName f.name, ""⟩],
          s.docs ++ [], s.nextId + 1⟩ = true
        refine weakInv_extend s _ [] h rfl ?_ ?_ ?_ ?_
        · intro t _ d0 hd0; simp at hd0
        · exact Or.inl (fun d0 hd0 => by simp at hd0)
        · intro d hd; simp at hd
        · intro d hd; simp at hd
      | true =>
        show weakInvCheck ⟨s.files ++ [⟨s.nextId, reviewerOutputFileName f.name, ""⟩],
          s.docs ++ [reviewerDocData Nat u fid s.nextId f.name], s.nextId + 1⟩ = true
        have hne : recordOfBlobIsOriginal fid (reviewerDocData Nat u fid s.nextId f.name)
            = true := by
          refine recordOfBlobIsOriginal_ne ?_
          rw [beq_eq_false_iff_ne]
          show s.nextId ≠ fid
          omega
        refine weakInv_extend s _ _ h rfl ?_ ?_ ?_ ?_
        · intro t ht d0 hd0
          simp only [List.mem_singleton] at hd0
          subst hd0
          refine recordOfBlobIsOriginal_ne ?_
          rw [beq_eq_false_iff_ne]
          show s.nextId ≠ t
          omega
        · refine Or.inr ?_
          rw [fileTypeOf_reviewerOutput]
          decide
        · intro d hd
          simp only [List.mem_singleton] at hd
          subst hd
          simp only [sourceNotDerived, reviewerDocData, List.all_append, Bool.or_eq_true,
            Bool.and_eq_true]
          refine Or.inr ⟨by simp, ?_, ?_⟩
          · rw [List.all_eq_true]
            exact hsrc
          · simpa using hne
        · intro d hd
          simp only [List.mem_singleton] at hd
          subst hd
          exact ⟨Nat.lt_succ_self _, Nat.lt_succ_of_lt hfidlt⟩
    · exact h

theorem weakInv_genFlashcards (s : SysState) (u : String) (fid : Nat)
    (mc idf tf en : Int) (ok docOk : Bool) (h : weakInvCheck s = true) :
    weakInvCheck (stepGenFlashcards s u fid mc idf tf en ok docOk) = true := by
  unfold stepGenFlashcards
  split
  · exact h
  · split
    · exact h
    · next f hfind =>
      split
      · next hcond =>
        have hsupp : supportedTypes.contains (fileTypeOf f.name) = true :=
          ((Bool.and_eq_true _ _).mp hcond).1
        have hfmem : f ∈ s.files := List.mem_of_find?_eq_some hfind
        have hffid : f.fid = fid := by
          have hx := List.find?_some hfind
          simpa using hx
        have hw := h
        simp only [weakInvCheck, Bool.and_eq_true, List.all_eq_true,
          decide_eq_true_eq] at hw
        obtain ⟨⟨⟨hdocs, hfilesW⟩, hff⟩, hdf⟩ := hw
        have hfidlt : fid < s.nextId := hffid ▸ hff f hfmem
        have hsrc : ∀ d0 ∈ s.docs, recordOfBlobIsOriginal fid d0 = true := by
          have hok := hfilesW f hfmem
          simp only [fileOkCheckW, Bool.or_eq_true, List.all_eq_true] at hok
          rcases hok with hok | hok
          · intro d0 hd0
            rw [← hffid]
            exact hok d0 hd0
          · rw [hsupp] at hok; simp at hok
        cases docOk with
        | false =>
          show weakInvCheck ⟨s.files ++ [⟨s.nextId, flashcardsOutputFileName f.name, ""⟩],
            s.docs ++ [], s.nextId + 1⟩ = true
          refine weakInv_extend s _ [] h rfl ?_ ?_ ?_ ?_
          · intro t _ d0 hd0; simp at hd0
          · exact Or.inl (fun d0 hd0 => by simp at hd0)
          · intro d hd; simp at hd
          · intro d hd; simp at hd
        | true =>
          show weakInvCheck ⟨s.files ++ [⟨s.nextId, flashcardsOutputFileName f.name, ""⟩],
            s.docs ++ [flashcardsDocData Nat u fid s.nextId f.name], s.nextId + 1⟩ = true
          have hne : recordOfBlobIsOriginal fid
              (flashcardsDocData Nat u fid s.nextId f.name) = true := by
            refine recordOfBlobIsOriginal_ne ?_
            rw [beq_eq_false_iff_ne]
            show s.nextId ≠ fid
            omega
          refine weakInv_extend s _ _ h rfl ?_ ?_ ?_ ?_
          · intro t ht d0 hd0
            simp only [List.mem_singleton] at hd0
            subst hd0
            refine recordOfBlobIsOriginal_ne ?_
            rw [beq_eq_false_iff_ne]
            show s.nextId ≠ t
            omega
          · refine Or.inr ?_
            rw [fileTypeOf_flashcardsOutput]
            decide
          · intro d hd
            simp only [List.mem_singleton] at hd
            subst hd
            simp only [sourceNotDerived, flashcardsDocData, List.all_append,
              Bool.or_eq_true, Bool.and_eq_true]
            refine Or.inr ⟨by simp, ?_, ?_⟩
            · rw [List.all_eq_true]
              exact hsrc
            · simpa using hne
          · intro d hd
            simp only [List.mem_singleton] at hd
            subst hd
            exact ⟨Nat.lt_succ_self _, Nat.lt_succ_of_lt hfidlt⟩
      · exact h

theorem weakInv_sysStep (s : SysState) (e : SysStep) (h : weakInvCheck s = true) :
    weakInvCheck (sysStep s e) = true := by
  cases e with
  | upload u n c docOk => exact weakInv_upload s u n c docOk h
  | genReviewer u fid ok docOk => exact weakInv_genReviewer s u fid ok docOk h
  | genFlashcards u fid mc idf tf en ok docOk =>
    exact weakInv_genFlashcards s u fid mc idf tf en ok docOk h

theorem invCheck_foldl : ∀ (steps : List SysStep) (s : SysState),
    steps.all stepDocOk = true → invCheck s = true →
    invCheck (steps.foldl sysStep s) = true := by
  intro steps
  induction steps with
  | nil => intro s _ hs; simpa using hs
  | cons e rest ih =>
    intro s hall hs
    simp only [List.all_cons, Bool.and_eq_true] at hall
    exact ih _ hall.2 (invCheck_sysStep s e hall.1 hs)

theorem weakInv_foldl : ∀ (steps : List SysStep) (s : SysState),
    weakInvCheck s = true → weakInvCheck (steps.foldl sysStep s) = true := by
  intro steps
  induction steps with
  | nil => intro s hs; simpa using hs
  | cons e rest ih => intro s hs; exact ih _ (weakInv_sysStep s e hs)

/-- C8 counterexample trace: the upload writes its blob but its
`create_document` call fails (cloud_controlller.py has no transaction
spanning `create_file` and `create_document`), leaving an orphaned `a.pdf`
blob with no metadata record; a later fully successful reviewer generation
on that blob id creates a `reviewer` record whose `source_file_id` points at
a blob carrying no `original`-type record at all, so the claimed one-level
derivation property fails on the resulting record set. -/
theorem orphaned_upload_breaks_derivation :
    (runTrace [.upload "u1" "a.pdf" "x" false, .genReviewer "u1" 0 true true]).docs =
      [reviewerDocData Nat "u1" 0 1 "a.pdf"] ∧
    (runTrace [.upload "u1" "a.pdf" "x" false, .genReviewer "u1" 0 true true]).docs.all
      (docOkCheck
        (runTrace [.upload "u1" "a.pdf" "x" false, .genReviewer "u1" 0 true true]).docs)
      = false := by
  exact ⟨by decide, by decide⟩

/-- C8: the records created by the three record-creating endpoints have the
claimed shapes — `original` records point at themselves, `reviewer` and
`flashcards` records carry the request's source file id — and along every
request trace on a fresh backend `source_file_id` never points at a derived
artifact (every record carried by the source blob is `original`-type and
self-pointing); the claim's stronger one-level property — the source blob
actually carries an `original`-type record — holds on every trace in which
each request's `create_document` call succeeds, but not in general (see the
orphaned-upload trace). -/
theorem metadata_record_derivation :
    (∀ (cfg : CloudConfig) (fn uid : String) (o : UploadOracle) (d : DocData String),
      (upload_file_endpoint cfg fn uid o).createdDoc = some d →
      d.type = "original" ∧ d.source_file_id = d.file_id) ∧
    (∀ (fid uid : String) (o : GenOracle) (d : DocData String),
      (generate_reviewer_endpoint fid uid o).createdDoc = some d →
      d.type = "reviewer" ∧ d.source_file_id = fid) ∧
    (∀ (fid uid : String) (mc idf tf en : Int) (o : GenOracle) (d : DocData String),
      (generate_flashcards_endpoint fid uid mc idf tf en o).createdDoc = some d →
      d.type = "flashcards" ∧ d.source_file_id = fid) ∧
    (∀ steps : List SysStep,
      (runTrace steps).docs.all (sourceNotDerived (runTrace steps).docs) = true) ∧
    (∀ steps : List SysStep, steps.all stepDocOk = true →
      invCheck (runTrace steps) = true) := by
  refine ⟨?_, ?_, ?_, ?_, ?_⟩
  · intro cfg fn uid o d h
    obtain ⟨nid, fr, cf, cd⟩ := o
    unfold upload_file_endpoint at h
    split at h
    · simp at h
    · cases fr with
      | error m => simp at h
      | ok v =>
        cases cf with
        | error e => simp at h
        | ok v2 =>
          cases cd with
          | error e => simp at h
          | ok v3 =>
            simp only [Option.some.injEq] at h
            subst h
            simp [uploadDocData]
  · intro fid uid o d h
    obtain ⟨meta, download, conv, bp, cleaned, generated, parseOk, upl, cdoc⟩ := o
    unfold generate_reviewer_endpoint at h
    cases meta with
    | error e => simp at h
    | ok name =>
      simp only at h
      split at h
      · cases download with
        | error e => simp at h
        | ok v =>
          cases cleaned with
          | error m => simp at h
          | ok v2 =>
            cases generated with
            | error m => simp at h
            | ok v3 =>
              cases upl with
              | error e => simp at h
              | ok newId =>
                cases cdoc with
                | error e => simp at h
                | ok v4 =>
                  simp only [Option.some.injEq] at h
                  subst h
                  simp [reviewerDocData]
      · simp at h
  · intro fid uid mc idf tf en o d h
    obtain ⟨meta, download, conv, bp, cleaned, generated, parseOk, upl, cdoc⟩ := o
    unfold generate_flashcards_endpoint generate_flashcards_body at h
    dsimp only at h
    split at h
    · simp at h
    · cases meta with
      | error e => simp at h
      | ok name =>
        dsimp only at h
        split at h
        · cases download with
          | error e => simp at h
          | ok v =>
            cases cleaned with
            | error m => simp at h
            | ok v2 =>
              dsimp only at h
              cases hg : generate_flashcards_gen (fun _ => generated) bp v2
                  (flashcardsConfigOf mc idf tf en) with
              | error m => rw [hg] at h; simp at h
              | ok raw =>
                rw [hg] at h
                cases parseOk with
                | false => simp at h
                | true =>
                  cases upl with
                  | error e => simp at h
                  | ok newId =>
                    cases cdoc with
                    | error e => simp at h
                    | ok v4 =>
                      simp only [if_true, Option.some.injEq] at h
                      subst h
                      simp [flashcardsDocData]
        · simp at h
  · intro steps
    have hw := weakInv_foldl steps initState rfl
    simp only [weakInvCheck, Bool.and_eq_true] at hw
    exact hw.1.1.1
  · intro steps hall
    exact invCheck_foldl steps initState hall rfl

theorem metadata_record_derivation_witness :
    ((uploadDocData String "u1" "nid" "a.pdf").type = "original" ∧
     (uploadDocData String "u1" "nid" "a.pdf").source_file_id =
       (uploadDocData String "u1" "nid" "a.pdf").file_id) ∧
    ((reviewerDocData String "u1" "f1" "new-id" "a.pdf").type = "reviewer" ∧
     (reviewerDocData String "u1" "f1" "new-id" "a.pdf").source_file_id = "f1") ∧
    ((flashcardsDocData String "u1" "f1" "new-id" "a.pdf").type = "flashcards" ∧
     (flashcardsDocData String "u1" "f1" "new-id" "a.pdf").source_file_id = "f1") ∧
    (runTrace [.upload "u1" "a.pdf" "x" false, .genReviewer "u1" 0 true true]).docs.all
      (sourceNotDerived
        (runTrace [.upload "u1" "a.pdf" "x" false, .genReviewer "u1" 0 true true]).docs)
      = true ∧
    invCheck (runTrace [.upload "u1" "a.pdf" "x" true, .genReviewer "u1" 0 true true])
      = true := by
  obtain ⟨h1, h2, h3, h4, h5⟩ := metadata_record_derivation
  exact ⟨h1 ⟨some "b", some "d", "files"⟩ "a.pdf" "u1" ⟨"nid", .ok (), .ok (), .ok ()⟩ _ rfl,
    h2 "f1" "u1" { csvOracle with meta := .ok "a.pdf" } _ rfl,
    h3 "f1" "u1" 10 10 10 10 { csvOracle with meta := .ok "a.pdf" } _ rfl,
    h4 [.upload "u1" "a.pdf" "x" false, .genReviewer "u1" 0 true true],
    h5 [.upload "u1" "a.pdf" "x" true, .genReviewer "u1" 0 true true] rfl⟩


/- ===================== Cleaner infrastructure (for C5/C10) ===================== -/


theorem isHT_not_isLB {c : Char} (h : isHT c = true) : isLB c = false := by
  simp only [isHT, Bool.or_eq_true, beq_iff_eq] at h
  rcases h with rfl | rfl <;> decide

theorem isHT_no_tab_space {c : Char} (h1 : isHT c = true) (h2 : (c == '\t') = false) :
    c = ' ' := by
  simp only [isHT, Bool.or_eq_true, beq_iff_eq] at h1
  rcases h1 with rfl | rfl
  · rfl
  · simp at h2

theorem not_isHT_not_tab {c : Char} (h : isHT c = false) : (c == '\t') = false := by
  simp only [isHT, Bool.or_eq_false_iff] at h
  exact h.2

theorem noLB3_tail {a : Char} {l : List Char} (h : noLB3 (a :: l) = true) :
    noLB3 l = true := by
  match l with
  | [] => rfl
  | [b] => rfl
  | b :: c :: rest => exact ((Bool.and_eq_true _ _).mp h).2

theorem noHT2_tail {a : Char} {l : List Char} (h : noHT2 (a :: l) = true) :
    noHT2 l = true := by
  match l with
  | [] => rfl
  | b :: rest => exact ((Bool.and_eq_true _ _).mp h).2

theorem noLB3_dropWhile (q : Char → Bool) :
    ∀ l : List Char, noLB3 l = true → noLB3 (l.dropWhile q) = true := by
  intro l
  induction l with
  | nil => intro h; exact h
  | cons a t ih =>
    intro h
    by_cases hq : q a = true
    · rw [List.dropWhile_cons_of_pos hq]
      exact ih (noLB3_tail h)
    · rw [List.dropWhile_cons_of_neg (by simpa using hq)]
      exact h

theorem noHT2_dropWhile (q : Char → Bool) :
    ∀ l : List Char, noHT2 l = true → noHT2 (l.dropWhile q) = true := by
  intro l
  induction l with
  | nil => intro h; exact h
  | cons a t ih =>
    intro h
    by_cases hq : q a = true
    · rw [List.dropWhile_cons_of_pos hq]
      exact ih (noHT2_tail h)
    · rw [List.dropWhile_cons_of_neg (by simpa using hq)]
      exact h

theorem noLB3_append_left : ∀ (l1 l2 : List Char), noLB3 (l1 ++ l2) = true →
    noLB3 l1 = true := by
  intro l1
  induction l1 with
  | nil => intro l2 h; rfl
  | cons a t ih =>
    intro l2 h
    cases t with
    | nil => rfl
    | cons b t2 =>
      cases t2 with
      | nil => rfl
      | cons c t3 =>
        simp only [List.cons_append, noLB3, Bool.and_eq_true] at h
        have h2 := ih l2 (by simpa [List.cons_append, noLB3, Bool.and_eq_true] using h.2)
        simp only [noLB3, Bool.and_eq_true]
        exact ⟨h.1, h2⟩

theorem noHT2_append_left : ∀ (l1 l2 : List Char), noHT2 (l1 ++ l2) = true →
    noHT2 l1 = true := by
  intro l1
  induction l1 with
  | nil => intro l2 h; rfl
  | cons a t ih =>
    intro l2 h
    cases t with
    | nil => rfl
    | cons b t2 =>
      simp only [List.cons_append, noHT2, Bool.and_eq_true] at h
      have h2 := ih l2 (by simpa [List.cons_append, noHT2, Bool.and_eq_true] using h.2)
      simp only [noHT2, Bool.and_eq_true]
      exact ⟨h.1, h2⟩

theorem noLB3_append_right : ∀ (l1 l2 : List Char), noLB3 (l1 ++ l2) = true →
    noLB3 l2 = true := by
  intro l1
  induction l1 with
  | nil => intro l2 h; exact h
  | cons a t ih =>
    intro l2 h
    exact ih l2 (noLB3_tail (by simpa using h))

theorem noLB3_cons_of_not {a : Char} (ha : isLB a = false) {t : List Char}
    (h : noLB3 t = true) : noLB3 (a :: t) = true := by
  cases t with
  | nil => rfl
  | cons b t2 =>
    cases t2 with
    | nil => rfl
    | cons c t3 =>
      simp only [noLB3, Bool.and_eq_true]
      exact ⟨by simp [ha], h⟩

theorem noLB3_cons_headNot {a : Char} {t : List Char} (ht : headNot isLB t = true)
    (h : noLB3 t = true) : noLB3 (a :: t) = true := by
  cases t with
  | nil => rfl
  | cons b t2 =>
    have hb : isLB b = false := by simpa [headNot] using ht
    cases t2 with
    | nil => rfl
    | cons c t3 =>
      simp only [noLB3, Bool.and_eq_true]
      exact ⟨by simp [hb], h⟩

theorem noLB3_cons2_headNot {a b : Char} {t : List Char} (ht : headNot isLB t = true)
    (h : noLB3 t = true) : noLB3 (a :: b :: t) = true := by
  cases t with
  | nil => rfl
  | cons c t2 =>
    have hc : isLB c = false := by simpa [headNot] using ht
    simp only [noLB3, Bool.and_eq_true]
    exact ⟨by simp [hc], noLB3_cons_headNot ht h⟩

theorem noHT2_cons_of_not {a : Char} (ha : isHT a = false) {t : List Char}
    (h : noHT2 t = true) : noHT2 (a :: t) = true := by
  cases t with
  | nil => rfl
  | cons b t2 =>
    simp only [noHT2, Bool.and_eq_true]
    exact ⟨by simp [ha], h⟩

theorem noHT2_cons_headNot {a : Char} {t : List Char} (ht : headNot isHT t = true)
    (h : noHT2 t = true) : noHT2 (a :: t) = true := by
  cases t with
  | nil => rfl
  | cons b t2 =>
    have hb : isHT b = false := by simpa [headNot] using ht
    simp only [noHT2, Bool.and_eq_true]
    exact ⟨by simp [hb], h⟩

theorem noLB3_short : ∀ {l : List Char}, l.length ≤ 2 → noLB3 l = true := by
  intro l h
  cases l with
  | nil => rfl
  | cons a t =>
    cases t with
    | nil => rfl
    | cons b t2 =>
      cases t2 with
      | nil => rfl
      | cons c t3 => simp at h

theorem dropWhile_headNot (p : Char → Bool) : ∀ l : List Char,
    headNot p (l.dropWhile p) = true := by
  intro l
  induction l with
  | nil => rfl
  | cons a t ih =>
    by_cases h : p a = true
    · simpa [List.dropWhile, h] using ih
    · simp [List.dropWhile, h, headNot]

theorem flushLB_short (run : List Char) : (flushLB run).length ≤ 2 := by
  unfold flushLB
  split
  · simp
  · next h => omega

theorem noLB3_append_two {as : List Char} (h2 : as.length ≤ 2) {c : Char}
    (hc : isLB c = false) {rest : List Char} (h : noLB3 rest = true) :
    noLB3 (as ++ c :: rest) = true := by
  have hcr : noLB3 (c :: rest) = true := noLB3_cons_of_not hc h
  have hhd : headNot isLB (c :: rest) = true := by simp [headNot, hc]
  cases as with
  | nil => exact hcr
  | cons a t =>
    cases t with
    | nil => exact noLB3_cons_headNot hhd hcr
    | cons b t2 =>
      cases t2 with
      | nil => exact noLB3_cons2_headNot hhd hcr
      | cons d t3 => simp at h2

/-- The output of the first `re.sub` pass never contains three consecutive
line-break characters. -/
theorem noLB3_collapseLBAux : ∀ (l run : List Char), run.all isLB = true →
    noLB3 (collapseLBAux run l) = true := by
  intro l
  induction l with
  | nil =>
    intro run hrun
    simp only [collapseLBAux, flushLB]
    split
    · rfl
    · next hlen => exact noLB3_short (by omega)
  | cons c cs ih =>
    intro run hrun
    simp only [collapseLBAux]
    by_cases hc : isLB c = true
    · rw [if_pos hc]
      exact ih (run ++ [c]) (by simp [List.all_append, hrun, hc])
    · rw [if_neg (by simpa using hc)]
      exact noLB3_append_two (flushLB_short run) (by simpa using hc) (ih [] rfl)

theorem run_le_one {run : List Char} (hall : run.all isLB = true)
    (hlen : run.length ≤ 2) {c : Char} (hc : isLB c = true) {cs : List Char}
    (hno : noLB3 (run ++ c :: cs) = true) : run.length ≤ 1 := by
  cases run with
  | nil => simp
  | cons a t =>
    cases t with
    | nil => simp
    | cons b t2 =>
      cases t2 with
      | nil =>
        simp only [List.all_cons, Bool.and_eq_true] at hall
        simp only [List.cons_append, List.nil_append, noLB3, Bool.and_eq_true] at hno
        rw [hall.1, hall.2.1, hc] at hno
        simp at hno
      | cons d t3 => simp at hlen

/-- The first `re.sub` pass is the identity on strings with no run of three
or more line breaks. -/
theorem collapseLBAux_id : ∀ (l run : List Char), run.all isLB = true →
    run.length ≤ 2 → noLB3 (run ++ l) = true → collapseLBAux run l = run ++ l := by
  intro l
  induction l with
  | nil =>
    intro run hall hlen hno
    simp only [collapseLBAux, flushLB]
    rw [if_neg (by omega)]
    simp
  | cons c cs ih =>
    intro run hall hlen hno
    simp only [collapseLBAux]
    by_cases hc : isLB c = true
    · rw [if_pos hc]
      have hr1 : run.length ≤ 1 := run_le_one hall hlen hc hno
      have hres := ih (run ++ [c])
        (by simp [List.all_append, hall, hc])
        (by simp; omega)
        (by simpa [List.append_assoc] using hno)
      rw [hres]
      simp
    · rw [if_neg (by simpa using hc)]
      have hfl : flushLB run = run := by
        unfold flushLB
        rw [if_neg (by omega)]
      have hcs : noLB3 cs = true :=
        noLB3_tail (noLB3_append_right run (c :: cs) hno)
      rw [hfl, ih [] rfl (by simp) (by simpa using hcs)]
      simp

theorem collapseLB_id {l : List Char} (h : noLB3 l = true) : collapseLB l = l := by
  simpa using collapseLBAux_id l [] rfl (by simp) (by simpa using h)

/-- The second `re.sub` pass is the identity on strings with no tabs and no
two consecutive spaces. -/
theorem collapseHTAux_id : ∀ l : List Char, noHT2 l = true → noTab l = true →
    collapseHTAux false l = l ∧
    (headNot isHT l = true → collapseHTAux true l = l) := by
  intro l
  induction l with
  | nil => exact fun _ _ => ⟨rfl, fun _ => rfl⟩
  | cons c cs ih =>
    intro h2 htab
    have htail2 : noHT2 cs = true := noHT2_tail h2
    have htabc : (c == '\t') = false ∧ noTab cs = true := by
      simpa [noTab, List.all_cons, Bool.and_eq_true] using htab
    obtain ⟨ihf, iht⟩ := ih htail2 htabc.2
    constructor
    · simp only [collapseHTAux]
      by_cases hc : isHT c = true
      · rw [if_pos hc]
        have hcsp : c = ' ' := isHT_no_tab_space hc htabc.1
        have hhead : headNot isHT cs = true := by
          cases cs with
          | nil => rfl
          | cons d cs2 =>
            simp only [noHT2, Bool.and_eq_true] at h2
            have := h2.1
            rw [hc] at this
            simpa [headNot] using this
        rw [if_neg (by simp)]
        rw [iht hhead, hcsp]
      · rw [if_neg (by simpa using hc), ihf]
    · intro hh
      have hc : isHT c = false := by simpa [headNot] using hh
      simp only [collapseHTAux]
      rw [if_neg (by simp [hc]), ihf]

/-- Output properties of the second `re.sub` pass: no tabs, no two
consecutive horizontal-whitespace characters, and in skip mode the output
starts with a non-horizontal-whitespace character. -/
theorem collapseHTAux_props : ∀ l : List Char,
    noTab (collapseHTAux false l) = true ∧ noTab (collapseHTAux true l) = true ∧
    noHT2 (collapseHTAux true l) = true ∧ headNot isHT (collapseHTAux true l) = true ∧
    noHT2 (collapseHTAux false l) = true := by
  intro l
  induction l with
  | nil => exact ⟨rfl, rfl, rfl, rfl, rfl⟩
  | cons c cs ih =>
    obtain ⟨f_tab, t_tab, t_ht2, t_head, f_ht2⟩ := ih
    by_cases hc : isHT c = true
    · have e1 : collapseHTAux false (c :: cs) = ' ' :: collapseHTAux true cs := by
        simp only [collapseHTAux]
        rw [if_pos hc, if_neg (by simp)]
      have e2 : collapseHTAux true (c :: cs) = collapseHTAux true cs := by
        simp only [collapseHTAux]
        rw [if_pos hc, if_pos (by simp)]
      rw [e1, e2]
      refine ⟨?_, t_tab, t_ht2, t_head, ?_⟩
      · simpa [noTab, List.all_cons] using t_tab
      · exact noHT2_cons_headNot t_head t_ht2
    · have hcb : isHT c = false := by simpa using hc
      have e1 : collapseHTAux false (c :: cs) = c :: collapseHTAux false cs := by
        simp only [collapseHTAux]
        rw [if_neg (by simp [hcb])]
      have e2 : collapseHTAux true (c :: cs) = c :: collapseHTAux false cs := by
        simp only [collapseHTAux]
        rw [if_neg (by simp [hcb])]
      rw [e1, e2]
      have htabc : noTab (c :: collapseHTAux false cs) = true := by
        simp [noTab, List.all_cons, not_isHT_not_tab hcb]
        simpa [noTab] using f_tab
      refine ⟨htabc, htabc, noHT2_cons_of_not hcb f_ht2, by simp [headNot, hcb],
        noHT2_cons_of_not hcb f_ht2⟩

/-- Skip mode never has a smaller head than plain mode: if the input starts
with a non-line-break character, so does the output of the second pass. -/
theorem headNot_isLB_collapseHTAux {m : List Char} (h : headNot isLB m = true) :
    headNot isLB (collapseHTAux false m) = true := by
  cases m with
  | nil => rfl
  | cons e m' =>
    have he : isLB e = false := by simpa [headNot] using h
    simp only [collapseHTAux]
    by_cases hh : isHT e = true
    · rw [if_pos hh, if_neg (by simp)]
      simp [headNot]
      decide
    · rw [if_neg (by simpa using hh)]
      simp [headNot, he]

theorem noLB3_third {a b : Char} (ha : isLB a = true) (hb : isLB b = true)
    {t : List Char} (h : noLB3 (a :: b :: t) = true) : headNot isLB t = true := by
  cases t with
  | nil => rfl
  | cons e t2 =>
    simp only [noLB3, Bool.and_eq_true] at h
    have h1 := h.1
    rw [ha, hb] at h1
    simpa [headNot] using h1

/-- The second `re.sub` pass preserves the absence of 3-runs of line
breaks. -/
theorem noLB3_collapseHTAux : ∀ (l : List Char), noLB3 l = true →
    noLB3 (collapseHTAux false l) = true ∧ noLB3 (collapseHTAux true l) = true := by
  intro l
  induction l with
  | nil => exact fun _ => ⟨rfl, rfl⟩
  | cons c cs ih =>
    intro h
    have htail : noLB3 cs = true := noLB3_tail h
    obtain ⟨ihf, iht⟩ := ih htail
    by_cases hc : isHT c = true
    · have e1 : collapseHTAux false (c :: cs) = ' ' :: collapseHTAux true cs := by
        simp only [collapseHTAux]
        rw [if_pos hc, if_neg (by simp)]
      have e2 : collapseHTAux true (c :: cs) = collapseHTAux true cs := by
        simp only [collapseHTAux]
        rw [if_pos hc, if_pos (by simp)]
      rw [e1, e2]
      exact ⟨noLB3_cons_of_not (by decide) iht, iht⟩
    · have hcb : isHT c = false := by simpa using hc
      have e1 : collapseHTAux false (c :: cs) = c :: collapseHTAux false cs := by
        simp only [collapseHTAux]
        rw [if_neg (by simp [hcb])]
      have e2 : collapseHTAux true (c :: cs) = c :: collapseHTAux false cs := by
        simp only [collapseHTAux]
        rw [if_neg (by simp [hcb])]
      rw [e1, e2]
      by_cases hlb : isLB c = true
      · -- need window information about the output of cs
        have key : noLB3 (c :: collapseHTAux false cs) = true := by
          cases cs with
          | nil => rfl
          | cons d cs' =>
            by_cases hd : isHT d = true
            · have e3 : collapseHTAux false (d :: cs') = ' ' :: collapseHTAux true cs' := by
                simp only [collapseHTAux]
                rw [if_pos hd, if_neg (by simp)]
              rw [e3]
              refine noLB3_cons_headNot (by simp [headNot]; decide) ?_
              rw [← e3]; exact ihf
            · have hdb : isHT d = false := by simpa using hd
              have e3 : collapseHTAux false (d :: cs') = d :: collapseHTAux false cs' := by
                simp only [collapseHTAux]
                rw [if_neg (by simp [hdb])]
              rw [e3]
              by_cases hdlb : isLB d = true
              · have hhd : headNot isLB cs' = true := noLB3_third hlb hdlb h
                have hw : headNot isLB (collapseHTAux false cs') = true :=
                  headNot_isLB_collapseHTAux hhd
                have hw3 : noLB3 (collapseHTAux false cs') = true := by
                  have := noLB3_tail (a := d) (l := collapseHTAux false cs')
                  apply this
                  rw [← e3]; exact ihf
                exact noLB3_cons2_headNot hw hw3
              · refine noLB3_cons_headNot (by simp [headNot]; simpa using hdlb) ?_
                rw [← e3]; exact ihf
        exact ⟨key, key⟩
      · have hkey : noLB3 (c :: collapseHTAux false cs) = true :=
          noLB3_cons_of_not (by simpa using hlb) ihf
        exact ⟨hkey, hkey⟩

theorem noLB3_rdropWhile (q : Char → Bool) {l : List Char} (h : noLB3 l = true) :
    noLB3 (l.rdropWhile q) = true := by
  obtain ⟨t, ht⟩ := List.rdropWhile_prefix q l
  exact noLB3_append_left _ t (by rw [ht]; exact h)

theorem noHT2_rdropWhile (q : Char → Bool) {l : List Char} (h : noHT2 l = true) :
    noHT2 (l.rdropWhile q) = true := by
  obtain ⟨t, ht⟩ := List.rdropWhile_prefix q l
  exact noHT2_append_left _ t (by rw [ht]; exact h)

theorem noTab_sublist {l m : List Char} (hs : m.Sublist l) (h : noTab l = true) :
    noTab m = true := by
  simp only [noTab, List.all_eq_true] at h ⊢
  exact fun x hx => h x (hs.subset hx)

theorem noLB3_pyStrip {l : List Char} (h : noLB3 l = true) :
    noLB3 (pyStrip l) = true :=
  noLB3_rdropWhile isPyWS (noLB3_dropWhile isPyWS l h)

theorem noHT2_pyStrip {l : List Char} (h : noHT2 l = true) :
    noHT2 (pyStrip l) = true :=
  noHT2_rdropWhile isPyWS (noHT2_dropWhile isPyWS l h)

theorem noTab_pyStrip {l : List Char} (h : noTab l = true) :
    noTab (pyStrip l) = true := by
  unfold pyStrip
  have h1 : noTab (l.dropWhile isPyWS) = true :=
    noTab_sublist (List.dropWhile_suffix isPyWS).sublist h
  exact noTab_sublist (List.rdropWhile_prefix isPyWS _).sublist h1

theorem pyStrip_idem (l : List Char) : pyStrip (pyStrip l) = pyStrip l := by
  unfold pyStrip
  have h1 : ((l.dropWhile isPyWS).rdropWhile isPyWS).dropWhile isPyWS =
      (l.dropWhile isPyWS).rdropWhile isPyWS := by
    cases hm : (l.dropWhile isPyWS).rdropWhile isPyWS with
    | nil => rfl
    | cons x t =>
      have hpre := List.rdropWhile_prefix isPyWS (l.dropWhile isPyWS)
      rw [hm] at hpre
      obtain ⟨r, hr⟩ := hpre
      have hh := dropWhile_headNot isPyWS l
      rw [← hr] at hh
      have hx : isPyWS x = false := by simpa [headNot] using hh
      simp [List.dropWhile, hx]
  rw [h1]
  exact List.rdropWhile_idempotent isPyWS (l.dropWhile isPyWS)

/-- C10: the deterministic pre-cleaning pass is idempotent; applying
`basic_text_cleaning` twice yields the same string as applying it once. -/
theorem basic_text_cleaning_idempotent (s : String) :
    basic_text_cleaning (basic_text_cleaning s) = basic_text_cleaning s := by
  unfold basic_text_cleaning
  apply string_ext
  show pyStrip (collapseHT (collapseLB (pyStrip (collapseHT (collapseLB s.data))))) =
    pyStrip (collapseHT (collapseLB s.data))
  set z := collapseHT (collapseLB s.data) with hz
  set y := pyStrip z with hy
  have n1 : noLB3 (collapseLB s.data) = true := noLB3_collapseLBAux s.data [] rfl
  have n2 : noLB3 z = true := by
    rw [hz]
    exact (noLB3_collapseHTAux (collapseLB s.data) n1).1
  have n3 : noLB3 y = true := noLB3_pyStrip n2
  have props := collapseHTAux_props (collapseLB s.data)
  have m2 : noHT2 z = true := by rw [hz]; exact props.2.2.2.2
  have t2 : noTab z = true := by rw [hz]; exact props.1
  have m3 : noHT2 y = true := noHT2_pyStrip m2
  have t3 : noTab y = true := noTab_pyStrip t2
  rw [collapseLB_id n3]
  rw [show collapseHT y = collapseHTAux false y from rfl, (collapseHTAux_id y m3 t3).1]
  rw [hy, pyStrip_idem]

/- ===================== C5: the cleaning pass matches its description ===================== -/

theorem all_takeWhile (p : Char → Bool) : ∀ l : List Char,
    (l.takeWhile p).all p = true := by
  intro l
  induction l with
  | nil => rfl
  | cons a t ih =>
    by_cases h : p a = true
    · rw [List.takeWhile_cons_of_pos h]
      simp [List.all_cons, h, ih]
    · rw [List.takeWhile_cons_of_neg (by simpa using h)]
      rfl

theorem collapseLBAux_skip : ∀ (tw rest : List Char),
    tw.all (fun x => !isLB x) = true →
    collapseLBAux [] (tw ++ rest) = tw ++ collapseLBAux [] rest := by
  intro tw
  induction tw with
  | nil => intro rest h; simp
  | cons a t ih =>
    intro rest hall
    simp only [List.all_cons, Bool.and_eq_true] at hall
    have ha : isLB a = false := by simpa using hall.1
    simp only [List.cons_append, collapseLBAux]
    rw [if_neg (by simp [ha])]
    simp only [flushLB, List.length_nil]
    rw [if_neg (by omega)]
    simp only [List.nil_append]
    exact congrArg (List.cons a) (ih rest hall.2)

theorem collapseLBAux_run : ∀ (l run : List Char), run.all isLB = true →
    collapseLBAux run l =
      flushLB (run ++ l.takeWhile isLB) ++ collapseLBAux [] (l.dropWhile isLB) := by
  intro l
  induction l with
  | nil =>
    intro run hall
    simp only [List.takeWhile_nil, List.dropWhile_nil, List.append_nil, collapseLBAux]
    simp [flushLB]
  | cons c cs ih =>
    intro run hall
    by_cases hc : isLB c = true
    · simp only [collapseLBAux]
      rw [if_pos hc, ih (run ++ [c]) (by simp [List.all_append, hall, hc]),
        List.takeWhile_cons_of_pos hc, List.dropWhile_cons_of_pos hc]
      simp [List.append_assoc]
    · simp only [collapseLBAux]
      rw [if_neg (by simpa using hc),
        List.takeWhile_cons_of_neg (by simpa using hc),
        List.dropWhile_cons_of_neg (by simpa using hc)]
      simp only [List.append_nil]
      congr 1
      simp only [collapseLBAux]
      rw [if_neg (by simpa using hc)]
      simp only [flushLB, List.length_nil]
      rw [if_neg (by omega)]
      simp

theorem collapseLB_eq_claim : ∀ l : List Char,
    collapseLB l = claimCollapseLineBreaks l := by
  have key : ∀ (n : Nat) (l : List Char), l.length ≤ n →
      collapseLB l = claimCollapseLineBreaks l := by
    intro n
    induction n with
    | zero =>
      intro l hl
      cases l with
      | nil => simp [collapseLB, collapseLBAux, flushLB, claimCollapseLineBreaks, charRuns]
      | cons c cs => simp at hl
    | succ n ih =>
      intro l hl
      cases l with
      | nil => simp [collapseLB, collapseLBAux, flushLB, claimCollapseLineBreaks, charRuns]
      | cons c cs =>
        have hcs : cs.length ≤ n := by simpa using hl
        by_cases hc : isLB c = true
        · have hemb : collapseLB (c :: cs) =
              flushLB (c :: cs.takeWhile isLB) ++ collapseLBAux [] (cs.dropWhile isLB) := by
            unfold collapseLB
            simp only [collapseLBAux]
            rw [if_pos hc]
            rw [show ([] : List Char) ++ [c] = [c] from rfl]
            rw [collapseLBAux_run cs [c] (by simp [hc])]
            rfl
          have hclaim : claimCollapseLineBreaks (c :: cs) =
              flushLB (c :: cs.takeWhile isLB) ++
                claimCollapseLineBreaks (cs.dropWhile isLB) := by
            unfold claimCollapseLineBreaks
            rw [charRuns, if_pos hc]
            simp only [List.map_cons, List.flatten_cons]
            congr 1
            have hall : (c :: cs.takeWhile isLB).all isLB = true := by
              simp [List.all_cons, hc, all_takeWhile]
            by_cases h3 : 3 ≤ (c :: cs.takeWhile isLB).length
            · rw [if_pos ⟨hall, h3⟩]
              unfold flushLB
              rw [if_pos h3]
            · rw [if_neg (fun hcontra => h3 hcontra.2)]
              unfold flushLB
              rw [if_neg h3]
          rw [hemb, hclaim]
          congr 1
          have hdw : (cs.dropWhile isLB).length ≤ n :=
            le_trans ((List.dropWhile_suffix isLB).length_le) hcs
          exact ih (cs.dropWhile isLB) hdw
        · have hcb : isLB c = false := by simpa using hc
          have hemb : collapseLB (c :: cs) = c :: collapseLB cs := by
            unfold collapseLB
            simp only [collapseLBAux]
            rw [if_neg (by simp [hcb])]
            simp only [flushLB, List.length_nil]
            rw [if_neg (by omega)]
            simp
          have hclaim : claimCollapseLineBreaks (c :: cs) =
              (c :: cs.takeWhile (fun x => !isLB x)) ++
                claimCollapseLineBreaks (cs.dropWhile (fun x => !isLB x)) := by
            unfold claimCollapseLineBreaks
            rw [charRuns, if_neg (by simp [hcb])]
            simp only [List.map_cons, List.flatten_cons]
            congr 1
            rw [if_neg ?hne]
            case hne =>
              intro hcontra
              have := hcontra.1
              simp [List.all_cons, hcb] at this
          rw [hemb, hclaim]
          simp only [List.cons_append, List.cons.injEq, true_and]
          have hdw : (cs.dropWhile (fun x => !isLB x)).length ≤ n :=
            le_trans ((List.dropWhile_suffix _).length_le) hcs
          calc collapseLB cs
              = collapseLB (cs.takeWhile (fun x => !isLB x) ++
                  cs.dropWhile (fun x => !isLB x)) := by
                rw [List.takeWhile_append_dropWhile]
            _ = cs.takeWhile (fun x => !isLB x) ++
                  collapseLB (cs.dropWhile (fun x => !isLB x)) :=
                collapseLBAux_skip _ _ (all_takeWhile _ cs)
            _ = cs.takeWhile (fun x => !isLB x) ++
                  claimCollapseLineBreaks (cs.dropWhile (fun x => !isLB x)) := by
                rw [ih _ hdw]
  intro l
  exact key l.length l le_rfl

theorem collapseHTAux_true_eq : ∀ l : List Char,
    collapseHTAux true l = collapseHTAux false (l.dropWhile isHT) := by
  intro l
  induction l with
  | nil => rfl
  | cons c cs ih =>
    by_cases hc : isHT c = true
    · simp only [collapseHTAux]
      rw [if_pos hc, if_pos (by simp), List.dropWhile_cons_of_pos hc]
      exact ih
    · have hcb : isHT c = false := by simpa using hc
      rw [List.dropWhile_cons_of_neg (by simpa using hc)]
      simp only [collapseHTAux]
      rw [if_neg (by simp [hcb]), if_neg (by simp [hcb])]

theorem collapseHT_skip : ∀ (tw rest : List Char),
    tw.all (fun x => !isHT x) = true →
    collapseHTAux false (tw ++ rest) = tw ++ collapseHTAux false rest := by
  intro tw
  induction tw with
  | nil => intro rest h; simp
  | cons a t ih =>
    intro rest hall
    simp only [List.all_cons, Bool.and_eq_true] at hall
    have ha : isHT a = false := by simpa using hall.1
    simp only [List.cons_append, collapseHTAux]
    rw [if_neg (by simp [ha])]
    exact congrArg (List.cons a) (ih rest hall.2)

theorem collapseHT_eq_claim : ∀ l : List Char,
    collapseHT l = claimCollapseHorizontal l := by
  have key : ∀ (n : Nat) (l : List Char), l.length ≤ n →
      collapseHT l = claimCollapseHorizontal l := by
    intro n
    induction n with
    | zero =>
      intro l hl
      cases l with
      | nil => simp [collapseHT, collapseHTAux, claimCollapseHorizontal, charRuns]
      | cons c cs => simp at hl
    | succ n ih =>
      intro l hl
      cases l with
      | nil => simp [collapseHT, collapseHTAux, claimCollapseHorizontal, charRuns]
      | cons c cs =>
        have hcs : cs.length ≤ n := by simpa using hl
        by_cases hc : isHT c = true
        · have hemb : collapseHT (c :: cs) =
              ' ' :: collapseHT (cs.dropWhile isHT) := by
            unfold collapseHT
            simp only [collapseHTAux]
            rw [if_pos hc, if_neg (by simp), collapseHTAux_true_eq]
          have hclaim : claimCollapseHorizontal (c :: cs) =
              [' '] ++ claimCollapseHorizontal (cs.dropWhile isHT) := by
            unfold claimCollapseHorizontal
            rw [charRuns, if_pos hc]
            simp only [List.map_cons, List.flatten_cons]
            congr 1
            rw [if_pos (by simp [List.all_cons, hc, all_takeWhile])]
          rw [hemb, hclaim]
          have hdw : (cs.dropWhile isHT).length ≤ n :=
            le_trans ((List.dropWhile_suffix isHT).length_le) hcs
          rw [ih _ hdw]
          rfl
        · have hcb : isHT c = false := by simpa using hc
          have hemb : collapseHT (c :: cs) = c :: collapseHT cs := by
            unfold collapseHT
            simp only [collapseHTAux]
            rw [if_neg (by simp [hcb])]
          have hclaim : claimCollapseHorizontal (c :: cs) =
              (c :: cs.takeWhile (fun x => !isHT x)) ++
                claimCollapseHorizontal (cs.dropWhile (fun x => !isHT x)) := by
            unfold claimCollapseHorizontal
            rw [charRuns, if_neg (by simp [hcb])]
            simp only [List.map_cons, List.flatten_cons]
            congr 1
            rw [if_neg ?hne]
            case hne =>
              intro hcontra
              simp [List.all_cons, hcb] at hcontra
          rw [hemb, hclaim]
          simp only [List.cons_append, List.cons.injEq, true_and]
          have hdw : (cs.dropWhile (fun x => !isHT x)).length ≤ n :=
            le_trans ((List.dropWhile_suffix _).length_le) hcs
          calc collapseHT cs
              = collapseHT (cs.takeWhile (fun x => !isHT x) ++
                  cs.dropWhile (fun x => !isHT x)) := by
                rw [List.takeWhile_append_dropWhile]
            _ = cs.takeWhile (fun x => !isHT x) ++
                  collapseHT (cs.dropWhile (fun x => !isHT x)) :=
                collapseHT_skip _ _ (all_takeWhile _ cs)
            _ = cs.takeWhile (fun x => !isHT x) ++
                  claimCollapseHorizontal (cs.dropWhile (fun x => !isHT x)) := by
                rw [ih _ hdw]
  intro l
  exact key l.length l le_rfl

/-- C5: the deterministic pre-cleaning pass behaves exactly as described:
every maximal run of 3 or more consecutive line-break characters becomes one
blank line, runs of 1 or 2 line breaks are left unchanged, every maximal run
of horizontal whitespace becomes a single space, and both ends are
trimmed — `claimClean` is that description, applied to the maximal-run
decomposition `charRuns`. -/
theorem basic_text_cleaning_matches_claim : ∀ s : String,
    basic_text_cleaning s = claimClean s := by
  intro s
  unfold basic_text_cleaning claimClean
  apply string_ext
  show pyStrip (collapseHT (collapseLB s.data)) =
    claimTrim (claimCollapseHorizontal (claimCollapseLineBreaks s.data))
  rw [collapseLB_eq_claim, collapseHT_eq_claim]
  rfl
